import Mathlib

/-!
Shallow embedding of the nvisy-dal data-access layer (packages/nvisy-dal).

The embedding models, directly from the Python sources:
  - the error taxonomy (errors.py),
  - the resumption Context and Params models (generated/contexts.py,
    generated/params.py),
  - the PostgreSQL provider's keyset-paginated read, its query builder and its
    batched write (providers/postgres.py),
  - the S3 provider's marker-paginated read, its per-item write and its key
    resolution (providers/s3.py),
  - the connect / disconnect / exception-wrapping behaviour of the providers
    (providers/postgres.py, providers/s3.py, providers/qdrant.py,
    providers/milvus.py, providers/weaviate.py, providers/pinecone.py).

External backends (PostgreSQL itself, the S3 service, the vector stores) are
out of the repository; they are modelled as deterministic snapshots: a
relational table is a list of records and the SQL engine evaluates the
generated WHERE / ORDER BY clauses with standard SQL semantics; an S3 bucket
is a lexicographically sorted list of keys and list_objects_v2 returns the
first MaxKeys matching keys.  Values flowing through the relational path are
modelled as SQL text values (`Option String`, `none` being NULL), matching the
string-typed cursor/tiebreaker fields of RelationalContext.
-/

/-- Closed set of provider error kinds (errors.py, class ErrorKind). -/
inductive ErrorKind where
  | CONNECTION
  | NOT_FOUND
  | INVALID_INPUT
  | TIMEOUT
  | PROVIDER
deriving DecidableEq, Repr

/-- Base error for all provider operations (errors.py, class DalError).
The wrapped native cause is kept abstract; `kind` defaults to PROVIDER exactly
as in `DalError.__init__`. -/
structure DalError where
  message : String
  kind : ErrorKind := ErrorKind.PROVIDER
deriving DecidableEq, Repr

/-- Context for object storage operations (generated/contexts.py,
ObjectContext).  Fields: `pfx` models the Python field `prefix` (path prefix
for listing), `token` is the last seen object key.  These are the only two
fields of the Python model. -/
structure ObjectContext where
  pfx : Option String := none
  token : Option String := none
deriving DecidableEq, Repr

/-- Context for relational database operations (generated/contexts.py,
RelationalContext).  `cursor` and `tiebreaker` are the only fields. -/
structure RelationalContext where
  cursor : Option String := none
  tiebreaker : Option String := none
deriving DecidableEq, Repr

/-- Context for vector database operations (generated/contexts.py,
VectorContext).  `token` is the only field. -/
structure VectorContext where
  token : Option String := none
deriving DecidableEq, Repr

/-- Python truthiness of an optional string: None and "" are falsy. -/
def strTruthy : Option String → Bool
  | none => false
  | some s => s ≠ ""

/-- Python `a or b` for an optional string `a` and a string `b`. -/
def orelseStr (a : Option String) (b : String) : String :=
  match a with
  | none => b
  | some s => if s = "" then b else s

/-- Parameters for PostgreSQL operations (providers/postgres.py,
PostgresParams, inheriting table/columns/cursor_column/tiebreaker_column/
batch_size from RelationalParams in generated/params.py).  `whereCond` models
the Python field `where` (a Lean keyword); values are SQL text values. -/
structure PostgresParams where
  table : String
  columns : Option (List String) := none
  cursor_column : String := "id"
  tiebreaker_column : Option String := none
  batch_size : Nat := 1000
  schema_name : String := "public"
  whereCond : Option (List (String × Option String)) := none
deriving DecidableEq, Repr

/-- Parameters for S3 operations (providers/s3.py, S3Params, inheriting
bucket/batch_size from ObjectParams).  `pfx` models the Python field
`prefix` (a Lean keyword). -/
structure S3Params where
  bucket : String
  batch_size : Nat := 1000
  pfx : String := ""
  content_type : String := "application/octet-stream"
deriving DecidableEq, Repr

/-- Parameters for vector store operations (generated/params.py,
VectorParams; QdrantParams adds nothing). -/
structure VectorParams where
  collection : String
  dimension : Option Nat := none
  batch_size : Nat := 1000
deriving DecidableEq, Repr

/-- Fuel-driven worker for `chunksList`; the fuel is the list length, which
bounds the number of chunks. -/
def chunksGo (b : Nat) : Nat → List α → List (List α)
  | _, [] => []
  | 0, _ :: _ => []
  | fuel + 1, a :: l => (a :: l.take (b - 1)) :: chunksGo b fuel (l.drop (b - 1))

/-- Partition of a list into consecutive chunks of size `b` (the last one
possibly shorter), mirroring the Python loop
`for i in range(0, len(items), batch_size): items[i : i + batch_size]`
used by the postgres, qdrant, milvus and weaviate write methods. -/
def chunksList (b : Nat) (l : List α) : List (List α) :=
  chunksGo b l.length l

/-- Strict lexicographic order on char lists by code point; this is the
order in which S3 lists keys and in which PostgreSQL compares text values
(UTF-8 byte order coincides with code-point order). -/
def listLtB : List Char → List Char → Bool
  | [], [] => false
  | [], _ :: _ => true
  | _ :: _, [] => false
  | a :: as, b :: bs =>
    if a.toNat < b.toNat then true
    else if b.toNat < a.toNat then false
    else listLtB as bs

/-- Strict lexicographic order on strings. -/
def strLtB (a b : String) : Bool := listLtB a.data b.data

/-- Reflexive lexicographic order on strings. -/
def strLeB (a b : String) : Bool := a = b || strLtB a b

/-- Bool test that `p` is a prefix of `s` (Python str.startswith). -/
def listIsPfxOf : List Char → List Char → Bool
  | [], _ => true
  | _ :: _, [] => false
  | a :: as, b :: bs => if a = b then listIsPfxOf as bs else false

/-- String `s` starts with `p` (Python s.startswith(p)). -/
def strStartsWith (s p : String) : Bool := listIsPfxOf p.data s.data

/-- SQL text value: `none` is NULL. -/
abbrev PgValue := Option String

/-- A relational row as the Python side sees it: an association list from
column name to value, in the dict's insertion order. -/
abbrev PgRecord := List (String × PgValue)

/-- Value of a column in a row, as the SQL engine sees it.  A column missing
from the row is treated as NULL; theorems that need the column assume its
presence explicitly. -/
def sqlVal (r : PgRecord) (col : String) : PgValue :=
  (List.lookup col r).join

/-- String extracted from a record for context building, mirroring
`record_dict.get(col, "")` followed by `str(v) if v is not None else ""` in
`PostgresProvider._extract_context`: a missing column or a NULL both give "". -/
def extractStr (r : PgRecord) (col : String) : String :=
  match List.lookup col r with
  | some (some s) => s
  | _ => ""

/-- Resumption context extracted from a record
(`PostgresProvider._extract_context`): the cursor string is always present;
the tiebreaker string only when a tiebreaker column is configured (Python
truthiness of `self._params.tiebreaker_column`). -/
def extractContext (p : PostgresParams) (r : PgRecord) : RelationalContext :=
  { cursor := some (extractStr r p.cursor_column)
  , tiebreaker :=
      if strTruthy p.tiebreaker_column then
        some (extractStr r (p.tiebreaker_column.getD ""))
      else none }

/-- SQL evaluation of `col > $v` on a row value: NULL compares to nothing. -/
def sqlGtB : PgValue → String → Bool
  | none, _ => false
  | some a, c => strLtB c a

/-- SQL evaluation of the composite row comparison `(c, t) > ($cv, $tv)`:
`c > cv OR (c = cv AND t > tv)` with NULL propagation per component. -/
def sqlPairGtB (vc vt : PgValue) (cv tv : String) : Bool :=
  match vc with
  | none => false
  | some a => strLtB cv a || (a = cv && sqlGtB vt tv)

/-- SQL truth value of the WHERE clause emitted by
`PostgresProvider._build_keyset_condition` on a row: no condition without a
cursor; the composite tuple comparison when a tiebreaker column is configured
and the context carries a tiebreaker; the plain cursor comparison otherwise. -/
def keysetPredB (p : PostgresParams) (ctx : RelationalContext) (r : PgRecord) : Bool :=
  match ctx.cursor with
  | none => true
  | some cv =>
    match ctx.tiebreaker, strTruthy p.tiebreaker_column with
    | some tv, true =>
      sqlPairGtB (sqlVal r p.cursor_column) (sqlVal r (p.tiebreaker_column.getD ""))
        cv tv
    | _, _ => sqlGtB (sqlVal r p.cursor_column) cv

/-- Reflexive order on SQL values used by ascending ORDER BY (NULLS LAST,
the PostgreSQL default for ascending order). -/
def optLeB : PgValue → PgValue → Bool
  | none, none => true
  | none, some _ => false
  | some _, none => true
  | some a, some b => strLeB a b

/-- Strict order on SQL values, NULLS LAST. -/
def optLtB : PgValue → PgValue → Bool
  | none, _ => false
  | some _, none => true
  | some a, some b => strLtB a b

/-- Sort key of a row under the ORDER BY clause `PostgresProvider.read`
emits: the cursor column, then the tiebreaker column when configured. -/
def rowKey (p : PostgresParams) (r : PgRecord) : PgValue × PgValue :=
  ( sqlVal r p.cursor_column
  , if strTruthy p.tiebreaker_column then sqlVal r (p.tiebreaker_column.getD "")
    else none )

/-- Row order realised by the emitted ORDER BY clause: lexicographic on the
sort key. -/
def rowLeB (p : PostgresParams) (a b : PgRecord) : Bool :=
  let ka := rowKey p a
  let kb := rowKey p b
  if ka.1 = kb.1 then optLeB ka.2 kb.2 else optLtB ka.1 kb.1

/-- Propositional form of `rowLeB`, for use with List.insertionSort. -/
def rowLeP (p : PostgresParams) (a b : PgRecord) : Prop := rowLeB p a b = true

instance (p : PostgresParams) : DecidableRel (rowLeP p) := fun a b =>
  inferInstanceAs (Decidable (rowLeB p a b = true))

/-- Strict lexicographic order on sort keys (NULLS LAST per component). -/
def pairLtB (x y : PgValue × PgValue) : Bool :=
  optLtB x.1 y.1 || (x.1 = y.1 && optLtB x.2 y.2)

/-- Strict row order under the emitted ORDER BY clause: strict lexicographic
comparison of the rows' sort keys. -/
def keyLtB (p : PostgresParams) (a c : PgRecord) : Bool :=
  pairLtB (rowKey p a) (rowKey p c)

/-- SQL truth value, on a row, of the conditions
`PostgresProvider._build_where_conditions` emits: for each configured pair,
`"k" IS NULL` when the value is None and `"k" = $n` otherwise (an SQL
equality against a NULL column is not true).  A falsy `where` (None or the
empty dict) contributes no condition. -/
def wherePredB (p : PostgresParams) (r : PgRecord) : Bool :=
  match p.whereCond with
  | none => true
  | some [] => true
  | some kvs =>
    kvs.all (fun kv =>
      match kv.2 with
      | none => (sqlVal r kv.1).isNone
      | some x =>
        match sqlVal r kv.1 with
        | none => false
        | some a => a = x)

/-- Projection of a row to the SELECT column list of
`PostgresProvider.read`: when `params.columns` is truthy the query selects
exactly those columns (in that order), so the record the Python side builds
with `dict(record)` — and hands to `_extract_context` — holds only them;
otherwise `SELECT *` keeps the full row.  Selected column names are assumed
distinct, as in any non-degenerate SELECT list. -/
def pgProject (p : PostgresParams) (r : PgRecord) : PgRecord :=
  match p.columns with
  | some (c0 :: cls) => (c0 :: cls).map (fun col => (col, sqlVal r col))
  | _ => r

/-- Rows produced by a single `PostgresProvider.read` call against a table
snapshot: the SQL engine keeps the rows satisfying the conjunction of the
configured where-conditions and the keyset condition (both ANDed into the
same WHERE clause) and returns them ordered by the emitted ORDER BY clause
(modelled by a sorted permutation).  WHERE and ORDER BY see the full row;
the SELECT projection applies only to the yielded records. -/
def pgReadRows (p : PostgresParams) (table : List PgRecord)
    (ctx : RelationalContext) : List PgRecord :=
  List.insertionSort (rowLeP p)
    (table.filter (fun r => wherePredB p r && keysetPredB p ctx r))

/-- Stream yielded by `PostgresProvider.read`: each projected record paired
with the resumption context extracted from that projected record
(postgres.py lines 163-164 build `record_dict` from the query result, which
holds only the selected columns, and pass it to `_extract_context`). -/
def pgRead (p : PostgresParams) (table : List PgRecord)
    (ctx : RelationalContext) : List (PgRecord × RelationalContext) :=
  (pgReadRows p table ctx).map
    (fun r => (pgProject p r, extractContext p (pgProject p r)))

/-- Double-quoted SQL identifier, mirroring the f-strings in postgres.py. -/
def quoteIdent (c : String) : String := "\"" ++ c ++ "\""

/-- Worker for `PostgresProvider._build_where_conditions`: walks the
`where` dict in order, appending bind parameters and condition strings;
`$n` indices are the parameter list length after each append. -/
def buildWhereGo : List (String × PgValue) → List PgValue → List String →
    List PgValue × List String
  | [], ps, cs => (ps, cs)
  | (k, v) :: rest, ps, cs =>
    match v with
    | none => buildWhereGo rest ps (cs ++ [quoteIdent k ++ " IS NULL"])
    | some x =>
      buildWhereGo rest (ps ++ [some x])
        (cs ++ [quoteIdent k ++ " = $" ++ toString (ps.length + 1)])

/-- Model of `PostgresProvider._build_where_conditions`: a falsy `where`
(None or empty dict) contributes nothing. -/
def buildWhereConditions (p : PostgresParams) : List PgValue × List String :=
  match p.whereCond with
  | none => ([], [])
  | some [] => ([], [])
  | some kvs => buildWhereGo kvs [] []

/-- Model of `PostgresProvider._build_keyset_condition`: appends the cursor
bind parameter, then either the composite tuple condition (tiebreaker column
configured and context tiebreaker present) or the plain comparison. -/
def buildKeysetCondition (p : PostgresParams) (ctx : RelationalContext)
    (ps : List PgValue) (cs : List String) (cursor_col : String) :
    List PgValue × List String :=
  match ctx.cursor with
  | none => (ps, cs)
  | some cv =>
    let ps1 := ps ++ [some cv]
    match ctx.tiebreaker, strTruthy p.tiebreaker_column with
    | some tv, true =>
      let ps2 := ps1 ++ [some tv]
      ( ps2
      , cs ++ ["(" ++ cursor_col ++ ", " ++ quoteIdent (p.tiebreaker_column.getD "")
          ++ ") > ($" ++ toString (ps2.length - 1) ++ ", $" ++ toString ps2.length
          ++ ")"] )
    | _, _ => (ps1, cs ++ [cursor_col ++ " > $" ++ toString ps1.length])

/-- SQL query text and bind parameters built by `PostgresProvider.read`. -/
def pgBuildQuery (p : PostgresParams) (ctx : RelationalContext) :
    String × List PgValue :=
  let columns :=
    match p.columns with
    | some (c :: cls) => String.intercalate ", " ((c :: cls).map quoteIdent)
    | _ => "*"
  let table := quoteIdent p.schema_name ++ "." ++ quoteIdent p.table
  let cursor_col := quoteIdent p.cursor_column
  let part0 := "SELECT " ++ columns ++ " FROM " ++ table
  let st1 := buildWhereConditions p
  let st2 := buildKeysetCondition p ctx st1.1 st1.2 cursor_col
  let parts :=
    if st2.2 = [] then [part0]
    else [part0, "WHERE " ++ String.intercalate " AND " st2.2]
  let orderPart :=
    if strTruthy p.tiebreaker_column then
      "ORDER BY " ++ cursor_col ++ ", " ++ quoteIdent (p.tiebreaker_column.getD "")
    else "ORDER BY " ++ cursor_col
  (String.intercalate " " (parts ++ [orderPart]), st2.1)

/-- Column list of the INSERT statement built by `PostgresProvider.write`:
the keys of the first item, in that item's own order. -/
def pgInsertColumns (items : List PgRecord) : List String :=
  (items.headD []).map Prod.fst

/-- Placeholder list `$1, ..., $n` of the INSERT statement. -/
def pgPlaceholders (n : Nat) : String :=
  String.intercalate ", " ((List.range n).map (fun i => "$" ++ toString (i + 1)))

/-- INSERT statement text built by `PostgresProvider.write`. -/
def pgInsertQuery (p : PostgresParams) (items : List PgRecord) : String :=
  let cols := pgInsertColumns items
  "INSERT INTO " ++ quoteIdent p.schema_name ++ "." ++ quoteIdent p.table
    ++ " (" ++ String.intercalate ", " (cols.map quoteIdent) ++ ") VALUES ("
    ++ pgPlaceholders cols.length ++ ")"

/-- Rows bound by `PostgresProvider.write`, one executemany call per chunk of
`batch_size` items; each row is `tuple(item.values())`, the item's own values
in the item's own order. -/
def pgWriteBatches (p : PostgresParams) (items : List PgRecord) :
    List (List (List PgValue)) :=
  (chunksList p.batch_size items).map (fun b => b.map (fun r => r.map Prod.snd))

/-- Native calls issued by `PostgresProvider.write`: nothing on empty input
(early return), otherwise the INSERT statement and the executemany batches.
No shape validation of the items takes place. -/
def pgWrite (p : PostgresParams) (items : List PgRecord) :
    Option (String × List (List (List PgValue))) :=
  if items = [] then none else some (pgInsertQuery p items, pgWriteBatches p items)

/-- Object item (generated/datatypes.py, class Object): path, raw data and
content type.  The byte payload is carried opaquely as a string. -/
structure ObjectItem where
  path : String
  data : String
  content_type : Option String := none
deriving DecidableEq, Repr

/-- Snapshot of an S3 bucket: its keys in the lexicographic order in which
list_objects_v2 reports them, and the content / content type stored under
each key. -/
structure S3BucketModel where
  keys : List String
  content : String → String
  contentType : String → Option String

/-- One native list_objects_v2 request as issued by `S3Provider.read`. -/
structure ListRequest where
  bucket : String
  pfx : String
  maxKeys : Nat
  startAfter : Option String
deriving DecidableEq, Repr

/-- Python truthiness filter on an optional string: a falsy value (None or
"") becomes `none`.  `S3Provider.read` passes StartAfter only when
`last_key` is truthy. -/
def truthyOpt : Option String → Option String
  | none => none
  | some s => if s = "" then none else some s

/-- Keys matching one list_objects_v2 request: keys under the prefix and
strictly after StartAfter, in bucket (lexicographic) order. -/
def s3MatchingKeys (bucket : S3BucketModel) (pfx : String)
    (startAfter : Option String) : List String :=
  bucket.keys.filter (fun k =>
    strStartsWith k pfx &&
      (match startAfter with
       | none => true
       | some s => strLtB s k))

/-- One page returned by list_objects_v2: the first MaxKeys matching keys and
the IsTruncated flag. -/
def s3ListPage (bucket : S3BucketModel) (pfx : String)
    (startAfter : Option String) (maxKeys : Nat) : List String × Bool :=
  let matching := s3MatchingKeys bucket pfx startAfter
  (matching.take maxKeys, decide (maxKeys < matching.length))

/-- Paging loop of `S3Provider.read`: list a page, fetch and yield each
listed object together with a resumption context carrying the effective
prefix and the object key, update last_key, and continue while IsTruncated.
Also records the native list requests issued.  The fuel argument bounds the
number of iterations; `bucket.keys.length + 1` is always enough because every
nonempty page strictly advances last_key.  (With batch_size = 0 and matching
keys remaining, the Python loop would spin forever requesting empty pages;
the model stops instead, and all theorems about the loop assume a positive
batch size.) -/
def s3ReadGo (bucket : S3BucketModel) (bname : String) (pfx : String) (b : Nat) :
    Nat → Option String → List (ObjectItem × ObjectContext) × List ListRequest
  | 0, _ => ([], [])
  | fuel + 1, lastKey =>
    let sa := truthyOpt lastKey
    let req : ListRequest := { bucket := bname, pfx := pfx, maxKeys := b, startAfter := sa }
    let pg := s3ListPage bucket pfx sa b
    match pg.1.getLast? with
    | none => ([], [req])
    | some lst =>
      let items := pg.1.map (fun k =>
        ( { path := k, data := bucket.content k, content_type := bucket.contentType k }
        , ({ pfx := some pfx, token := some k } : ObjectContext) ))
      if pg.2 then
        let rest := s3ReadGo bucket bname pfx b fuel (some lst)
        (items ++ rest.1, req :: rest.2)
      else (items, [req])

/-- Stream yielded by `S3Provider.read` from a bucket snapshot, paired with
the trace of native list requests.  The effective prefix is
`ctx.prefix or params.prefix` and the initial last_key is the context
token. -/
def s3Read (p : S3Params) (bucket : S3BucketModel) (ctx : ObjectContext) :
    List (ObjectItem × ObjectContext) × List ListRequest :=
  let pfx := orelseStr ctx.pfx p.pfx
  s3ReadGo bucket p.bucket pfx p.batch_size (bucket.keys.length + 1) ctx.token

/-- Model of `S3Provider._resolve_key`: prepend the configured prefix (no
separator) when it is nonempty and the key does not already start with it. -/
def resolve_key (p : S3Params) (key : String) : String :=
  if p.pfx ≠ "" && !(strStartsWith key p.pfx) then p.pfx ++ key else key

/-- One native put_object call issued by `S3Provider.write` / `S3Provider.put`. -/
structure PutCall where
  bucket : String
  key : String
  body : String
  contentType : String
deriving DecidableEq, Repr

/-- Native calls issued by `S3Provider.write`: one put_object call per item
(there is no chunking in the S3 write path), with the resolved key and
`item.content_type or params.content_type`. -/
def s3Write (p : S3Params) (items : List ObjectItem) : List PutCall :=
  items.map (fun it =>
    { bucket := p.bucket
    , key := resolve_key p it.path
    , body := it.data
    , contentType := orelseStr it.content_type p.content_type })

/-- Backend key used by `S3Provider.get`. -/
def s3GetKey (p : S3Params) (key : String) : String := resolve_key p key

/-- Backend key used by `S3Provider.put`. -/
def s3PutKey (p : S3Params) (key : String) : String := resolve_key p key

/-- Backend key used by `S3Provider.delete`. -/
def s3DeleteKey (p : S3Params) (key : String) : String := resolve_key p key

/-- Backend key used by `S3Provider.exists`. -/
def s3ExistsKey (p : S3Params) (key : String) : String := resolve_key p key

/-- Outcome of the head_bucket probe inside `S3Provider.connect`. -/
inductive S3ConnectOutcome where
  | ok
  | clientError (code : String)
  | otherExc
deriving DecidableEq, Repr

/-- Model of `S3Provider.connect`: a ClientError with code "404" becomes
NOT_FOUND, any other ClientError and any other exception become CONNECTION. -/
def s3Connect (outcome : S3ConnectOutcome) : Except DalError Unit :=
  match outcome with
  | .ok => .ok ()
  | .clientError code =>
    if code = "404" then
      .error { message := "Bucket not found", kind := ErrorKind.NOT_FOUND }
    else .error { message := "Failed to connect to S3", kind := ErrorKind.CONNECTION }
  | .otherExc => .error { message := "Failed to connect to S3", kind := ErrorKind.CONNECTION }

/-- Observable state of the PostgreSQL backend at connect time. -/
structure PgBackend where
  poolAvailable : Bool
  tableExists : String → Bool

/-- Model of `PostgresProvider.connect`: it only creates the connection pool
and wraps a pool-creation failure as CONNECTION.  No query is issued and the
`tableExists` state of the backend is never consulted — the source performs
no existence check for `params.table`. -/
def pgConnect (backend : PgBackend) (_p : PostgresParams) : Except DalError Unit :=
  if backend.poolAvailable then .ok ()
  else .error { message := "Failed to connect to PostgreSQL", kind := ErrorKind.CONNECTION }

/-- Outcome of the collection-existence probe inside the qdrant / milvus /
weaviate connect methods. -/
inductive VectorConnectOutcome where
  | existsTrue
  | existsFalse
  | nativeError
deriving DecidableEq, Repr

/-- Model of `QdrantProvider.connect`: a missing collection raises NOT_FOUND
(re-raised untouched by the `except DalError: raise` arm); any native failure
becomes CONNECTION. -/
def qdrantConnect (outcome : VectorConnectOutcome) : Except DalError Unit :=
  match outcome with
  | .existsTrue => .ok ()
  | .existsFalse => .error { message := "Collection not found", kind := ErrorKind.NOT_FOUND }
  | .nativeError => .error { message := "Failed to connect to Qdrant", kind := ErrorKind.CONNECTION }

/-- Model of `MilvusProvider.connect` (same shape as qdrant). -/
def milvusConnect (outcome : VectorConnectOutcome) : Except DalError Unit :=
  match outcome with
  | .existsTrue => .ok ()
  | .existsFalse => .error { message := "Collection not found", kind := ErrorKind.NOT_FOUND }
  | .nativeError => .error { message := "Failed to connect to Milvus", kind := ErrorKind.CONNECTION }

/-- Model of `WeaviateProvider.connect` (same shape as qdrant). -/
def weaviateConnect (outcome : VectorConnectOutcome) : Except DalError Unit :=
  match outcome with
  | .existsTrue => .ok ()
  | .existsFalse => .error { message := "Collection not found", kind := ErrorKind.NOT_FOUND }
  | .nativeError => .error { message := "Failed to connect to Weaviate", kind := ErrorKind.CONNECTION }

/-- Model of `PineconeProvider.connect`: the describe_index_stats probe
either succeeds or raises, and every failure — a missing index included —
is wrapped as CONNECTION. -/
def pineconeConnect (probeSucceeds : Bool) : Except DalError Unit :=
  if probeSucceeds then .ok ()
  else .error { message := "Failed to connect to Pinecone", kind := ErrorKind.CONNECTION }

/-- Connection pool handle of a PostgresProvider. -/
structure PgPool where
  closed : Bool
deriving DecidableEq, Repr

/-- Model of `PostgresProvider.disconnect` under normal backend behaviour:
`await self._pool.close()`.  asyncpg's Pool.close returns immediately when
the pool is already closed, so a repeated call is a no-op and raises
nothing. -/
def pgDisconnect (_pool : PgPool) : Except DalError PgPool :=
  .ok { closed := true }

/-- Model of `S3Provider.disconnect`: the body is empty (a documented no-op
for boto3), so it cannot fail. -/
def s3Disconnect : Except DalError Unit := .ok ()

/-- Native exception raised by the boto3 client: either a botocore
ClientError carrying an error code, or any other exception type. -/
inductive S3Native where
  | clientError (code : String)
  | otherNative
deriving DecidableEq, Repr

/-- What crosses the core boundary when an operation body raises a native
exception of type ε: either a DalError, or the native exception itself. -/
inductive ExcOutcome (ε : Type) where
  | wrapped (e : DalError)
  | escaped (e : ε)
deriving DecidableEq, Repr

/-- Exception behaviour of `S3Provider.read`: only `except ClientError` is
installed, so a ClientError is wrapped (default kind PROVIDER) and any other
native exception propagates unwrapped. -/
def s3ReadCatch : S3Native → ExcOutcome S3Native
  | .clientError _ => .wrapped { message := "Failed to read from S3" }
  | .otherNative => .escaped .otherNative

/-- Exception behaviour of `S3Provider.write`: same ClientError-only
handler. -/
def s3WriteCatch : S3Native → ExcOutcome S3Native
  | .clientError _ => .wrapped { message := "Failed to write to S3" }
  | .otherNative => .escaped .otherNative

/-- Exception behaviour of `S3Provider.get`: a ClientError with code
NoSuchKey becomes NOT_FOUND, other ClientErrors keep the default PROVIDER
kind, non-ClientError exceptions escape. -/
def s3GetCatch : S3Native → ExcOutcome S3Native
  | .clientError c =>
    if c = "NoSuchKey" then
      .wrapped { message := "Object not found", kind := ErrorKind.NOT_FOUND }
    else .wrapped { message := "Failed to get object" }
  | .otherNative => .escaped .otherNative

/-- Exception behaviour of `PostgresProvider.read`: `except Exception`
wraps every native exception, default kind PROVIDER. -/
def pgReadCatch (_tag : String) : ExcOutcome String :=
  .wrapped { message := "Failed to read from PostgreSQL" }

/-- Exception behaviour of `PostgresProvider.write`: `except Exception`
wraps every native exception, default kind PROVIDER. -/
def pgWriteCatch (_tag : String) : ExcOutcome String :=
  .wrapped { message := "Failed to write to PostgreSQL" }

/-- Exception behaviour of `PostgresProvider.disconnect`: the body
`await self._pool.close()` has no handler, so a native close failure
escapes unwrapped. -/
def pgDisconnectCatch (tag : String) : ExcOutcome String :=
  .escaped tag

/-- Exception behaviour of `QdrantProvider.write`: `except Exception`
wraps everything, default kind PROVIDER. -/
def qdrantWriteCatch (_tag : String) : ExcOutcome String :=
  .wrapped { message := "Failed to write to Qdrant" }

/-- Exception behaviour of `QdrantProvider.disconnect`: the body
`await self._client.close()` has no handler. -/
def qdrantDisconnectCatch (tag : String) : ExcOutcome String :=
  .escaped tag

/-- Error kind observed on the result of a connect model, `none` on
success. -/
def errKind : Except DalError Unit → Option ErrorKind
  | .ok _ => none
  | .error e => some e.kind

/-- True when the exception crossing the boundary is a DalError. -/
def isWrapped {ε : Type} : ExcOutcome ε → Bool
  | .wrapped _ => true
  | .escaped _ => false

/-- Vector embedding (generated/datatypes.py, class Embedding); float
payloads are carried opaquely as rationals, no arithmetic is done on them. -/
structure Embedding where
  id : String
  vector : List Rat
  metadata : List (String × String)
deriving DecidableEq, Repr

/-- Qdrant PointStruct built by `QdrantProvider.write` from an Embedding. -/
structure PointStruct where
  id : String
  vector : List Rat
  payload : List (String × String)
deriving DecidableEq, Repr

/-- Native upsert calls issued by `QdrantProvider.write`: nothing on empty
input, otherwise the mapped points chunked by batch_size, one upsert per
chunk in order. -/
def qdrantWrite (p : VectorParams) (items : List Embedding) : List (List PointStruct) :=
  if items = [] then []
  else chunksList p.batch_size
    (items.map (fun e => { id := e.id, vector := e.vector, payload := e.metadata }))

example : chunksList 2 [1, 2, 3, 4, 5] = [[1, 2], [3, 4], [5]] := by decide
example : chunksList 2 ([] : List Nat) = [] := by decide
example : chunksList 3 [1, 2, 3] = [[1, 2, 3]] := by decide
example : strLtB "ab" "b" = true := by decide
example : strLtB "b" "ab" = false := by decide
example : strLeB "a" "ab" = true := by decide
example : strStartsWith "abc" "ab" = true := by decide
example : strStartsWith "ab" "abc" = false := by decide
example : orelseStr (some "") "b" = "b" := by decide
example : ("data/" ++ "doc.txt" : String) = "data/doc.txt" := by decide
example :
    pgBuildQuery
      { table := "events", cursor_column := "id", tiebreaker_column := some "seq" }
      { cursor := some "5", tiebreaker := some "2" } =
    ("SELECT * FROM \"public\".\"events\" WHERE (\"id\", \"seq\") > ($1, $2) ORDER BY \"id\", \"seq\"",
      [some "5", some "2"]) := by decide
example :
    pgBuildQuery { table := "events", cursor_column := "id" } { cursor := some "5" } =
    ("SELECT * FROM \"public\".\"events\" WHERE \"id\" > $1 ORDER BY \"id\"",
      [some "5"]) := by decide
example :
    pgRead { table := "t", cursor_column := "c" }
      [[("c", some "2")], [("c", some "1")]] {} =
      [([("c", some "1")], { cursor := some "1" }),
       ([("c", some "2")], { cursor := some "2" })] := by decide
example :
    pgRead { table := "t", cursor_column := "c" }
      [[("c", some "2")], [("c", some "1")]] { cursor := some "1" } =
      [([("c", some "2")], { cursor := some "2" })] := by decide

/-! ## Helper lemmas -/

theorem strExt {a b : String} (h : a.data = b.data) : a = b := by
  cases a
  cases b
  exact congrArg String.mk h

theorem chunksGo_flatten {α : Type} (b : Nat) (hb : 0 < b) :
    ∀ (fuel : Nat) (l : List α), l.length ≤ fuel → (chunksGo b fuel l).flatten = l := by
  intro fuel
  induction fuel with
  | zero =>
    intro l hl
    cases l with
    | nil => simp [chunksGo]
    | cons a l => simp at hl
  | succ fuel ih =>
    intro l hl
    cases l with
    | nil => simp [chunksGo]
    | cons a l =>
      have hdrop : (l.drop (b - 1)).length ≤ fuel := by
        simp only [List.length_drop]
        simp at hl
        omega
      simp only [chunksGo, List.flatten_cons, List.cons_append]
      rw [ih (l.drop (b - 1)) hdrop, List.take_append_drop]

theorem chunksGo_length {α : Type} (b : Nat) (hb : 0 < b) :
    ∀ (fuel : Nat) (l : List α), l.length ≤ fuel →
      (chunksGo b fuel l).length = (l.length + b - 1) / b := by
  intro fuel
  induction fuel with
  | zero =>
    intro l hl
    cases l with
    | nil => simp [chunksGo, Nat.div_eq_of_lt (Nat.sub_lt hb Nat.one_pos)]
    | cons a l => simp at hl
  | succ fuel ih =>
    intro l hl
    cases l with
    | nil => simp [chunksGo, Nat.div_eq_of_lt (Nat.sub_lt hb Nat.one_pos)]
    | cons a l =>
      have hdrop : (l.drop (b - 1)).length ≤ fuel := by
        simp only [List.length_drop]
        simp at hl
        omega
      simp only [chunksGo, List.length_cons, ih (l.drop (b - 1)) hdrop,
        List.length_drop]
      have hn1 : l.length + 1 + b - 1 = (l.length + 1 - 1) + b := by omega
      rw [hn1, Nat.add_div_right _ hb]
      by_cases hbn : b ≤ l.length + 1
      · have : l.length - (b - 1) + b - 1 = l.length + 1 - 1 := by omega
        rw [this]
      · have h1 : l.length - (b - 1) = 0 := by omega
        rw [h1, Nat.div_eq_of_lt (by omega : l.length + 1 - 1 < b),
          Nat.div_eq_of_lt (by omega : 0 + b - 1 < b)]

theorem chunksGo_mem_length {α : Type} (b : Nat) (hb : 0 < b) :
    ∀ (fuel : Nat) (l : List α) (c : List α), c ∈ chunksGo b fuel l → c.length ≤ b := by
  intro fuel
  induction fuel with
  | zero =>
    intro l c hc
    cases l <;> simp [chunksGo] at hc
  | succ fuel ih =>
    intro l c hc
    cases l with
    | nil => simp [chunksGo] at hc
    | cons a l =>
      simp only [chunksGo, List.mem_cons] at hc
      rcases hc with hc | hc
      · subst hc
        simp only [List.length_cons]
        have := List.length_take_le (b - 1) l
        omega
      · exact ih _ _ hc

theorem chunksList_flatten {α : Type} (b : Nat) (hb : 0 < b) (l : List α) :
    (chunksList b l).flatten = l :=
  chunksGo_flatten b hb l.length l le_rfl

theorem chunksList_length {α : Type} (b : Nat) (hb : 0 < b) (l : List α) :
    (chunksList b l).length = (l.length + b - 1) / b :=
  chunksGo_length b hb l.length l le_rfl

theorem chunksList_mem_length {α : Type} (b : Nat) (hb : 0 < b) (l : List α)
    (c : List α) (hc : c ∈ chunksList b l) : c.length ≤ b :=
  chunksGo_mem_length b hb l.length l c hc

/-! ## C7 -/

/-- C7: for the connected providers cited by the claim, disconnect is
idempotent — after a successful disconnect a second disconnect also
produces no error (the S3 body is empty; the asyncpg pool close is a no-op
on an already-closed pool). -/
theorem claim_C7_disconnect_idempotent :
    (∀ pool : PgPool, (pgDisconnect pool).bind pgDisconnect =
        Except.ok { closed := true }) ∧
      s3Disconnect = Except.ok () :=
  ⟨fun _ => rfl, rfl⟩

/-! ## C3 -/

/-- C3 counterexample: `PostgresProvider.connect` with a backend whose pool
is available and on which the named table does not exist succeeds — it never
fails with NOT_FOUND, because the source performs no existence check for the
relational target. -/
theorem claim_C3_counterexample :
    pgConnect { poolAvailable := true, tableExists := fun _ => false }
      { table := "missing_table" } = Except.ok () := rfl

/-- C3 amended: the object-store connect and the qdrant / milvus / weaviate
vector connects fail with NOT_FOUND when the named target is absent and with
CONNECTION on transport failure, before any read or write; but
`PostgresProvider.connect` performs no existence check (it succeeds whenever
the pool can be created, whatever tables exist, and maps pool failure to
CONNECTION), and `PineconeProvider.connect` maps every probe failure —
a missing index included — to CONNECTION. -/
theorem claim_C3_connect_target_check :
    (∀ code, errKind (s3Connect (S3ConnectOutcome.clientError code)) =
        some (if code = "404" then ErrorKind.NOT_FOUND else ErrorKind.CONNECTION)) ∧
    errKind (s3Connect S3ConnectOutcome.otherExc) = some ErrorKind.CONNECTION ∧
    errKind (qdrantConnect VectorConnectOutcome.existsFalse) = some ErrorKind.NOT_FOUND ∧
    errKind (qdrantConnect VectorConnectOutcome.nativeError) = some ErrorKind.CONNECTION ∧
    errKind (milvusConnect VectorConnectOutcome.existsFalse) = some ErrorKind.NOT_FOUND ∧
    errKind (milvusConnect VectorConnectOutcome.nativeError) = some ErrorKind.CONNECTION ∧
    errKind (weaviateConnect VectorConnectOutcome.existsFalse) = some ErrorKind.NOT_FOUND ∧
    errKind (weaviateConnect VectorConnectOutcome.nativeError) = some ErrorKind.CONNECTION ∧
    errKind (pineconeConnect false) = some ErrorKind.CONNECTION ∧
    (∀ p, errKind (pgConnect { poolAvailable := false, tableExists := fun _ => true } p) =
        some ErrorKind.CONNECTION) ∧
    (∀ tableState p, pgConnect { poolAvailable := true, tableExists := tableState } p =
        Except.ok ()) := by
  refine ⟨fun code => ?_, rfl, rfl, rfl, rfl, rfl, rfl, rfl, rfl, fun p => rfl, fun te p => rfl⟩
  by_cases h : code = "404" <;> simp [s3Connect, errKind, h]

/-! ## C6 -/

/-- C6 counterexample: a backend-native exception that is not a botocore
ClientError, raised inside `S3Provider.read`, crosses the core boundary
unwrapped — the read body installs only `except ClientError`. -/
theorem claim_C6_counterexample :
    isWrapped (s3ReadCatch S3Native.otherNative) = false := rfl

/-- C6 amended: the postgres read/write and qdrant write handlers wrap every
native exception into a DalError (whose kind necessarily lies in the closed
five-kind set); the S3 data operations wrap exactly the botocore ClientError
natives, while any other native exception escapes unwrapped; and the
disconnect bodies install no handler at all, so a native close failure
escapes (the S3 disconnect body is empty and raises nothing). -/
theorem claim_C6_error_wrapping :
    (∀ tag, isWrapped (pgReadCatch tag) = true) ∧
    (∀ tag, isWrapped (pgWriteCatch tag) = true) ∧
    (∀ tag, isWrapped (qdrantWriteCatch tag) = true) ∧
    (∀ code, isWrapped (s3ReadCatch (S3Native.clientError code)) = true) ∧
    (∀ code, isWrapped (s3WriteCatch (S3Native.clientError code)) = true) ∧
    (∀ code, isWrapped (s3GetCatch (S3Native.clientError code)) = true) ∧
    s3ReadCatch S3Native.otherNative = ExcOutcome.escaped S3Native.otherNative ∧
    s3WriteCatch S3Native.otherNative = ExcOutcome.escaped S3Native.otherNative ∧
    (∀ tag, pgDisconnectCatch tag = ExcOutcome.escaped tag) ∧
    (∀ tag, qdrantDisconnectCatch tag = ExcOutcome.escaped tag) ∧
    (∀ e : DalError, e.kind = ErrorKind.CONNECTION ∨ e.kind = ErrorKind.NOT_FOUND ∨
      e.kind = ErrorKind.INVALID_INPUT ∨ e.kind = ErrorKind.TIMEOUT ∨
      e.kind = ErrorKind.PROVIDER) := by
  refine ⟨fun _ => rfl, fun _ => rfl, fun _ => rfl, fun code => ?_, fun code => ?_,
    fun code => ?_, rfl, rfl, fun _ => rfl, fun _ => rfl, fun e => ?_⟩
  · rfl
  · rfl
  · by_cases h : code = "NoSuchKey" <;> simp [s3GetCatch, isWrapped, h]
  · cases e with
    | mk m k => cases k <;> simp

theorem flatten_map_map {α β : Type} (g : α → β) :
    ∀ L : List (List α), (L.map (List.map g)).flatten = L.flatten.map g := by
  intro L
  induction L with
  | nil => rfl
  | cons c L ih =>
    rw [List.map_cons, List.flatten_cons, List.flatten_cons, List.map_append, ih]

/-! ## C1 -/

/-- C1 counterexample: two objects written through `S3Provider.write` with
batch size 2 produce two native put calls, not the single bulk call of
⌈2/2⌉ = 1 that the claim demands — the S3 write path issues one put_object
per item and never batches. -/
theorem claim_C1_counterexample :
    (s3Write { bucket := "b", batch_size := 2 }
        [{ path := "k1", data := "d1" }, { path := "k2", data := "d2" }]).length = 2 ∧
      (2 + 2 - 1) / 2 = 1 := by decide

theorem qdrantWrite_eq (p : VectorParams) (items : List Embedding) :
    qdrantWrite p items = chunksList p.batch_size
      (items.map (fun e => { id := e.id, vector := e.vector, payload := e.metadata })) := by
  cases items with
  | nil => simp [qdrantWrite, chunksList, chunksGo]
  | cons a l => simp [qdrantWrite]

/-- C1 amended: the chunking write paths (qdrant shown for the vector family,
postgres for the relational family) issue exactly ⌈N/B⌉ native bulk calls,
each of at most B items, whose concatenation is the input sequence in its
original order (every item in exactly one call); `S3Provider.write`, in
contrast, issues exactly N single-item put calls, one per input item in
input order. -/
theorem claim_C1_write_batching :
    (∀ (p : VectorParams) (items : List Embedding), 0 < p.batch_size →
      (qdrantWrite p items).length = (items.length + p.batch_size - 1) / p.batch_size ∧
      (∀ c ∈ qdrantWrite p items, c.length ≤ p.batch_size) ∧
      (qdrantWrite p items).flatten =
        items.map (fun e => { id := e.id, vector := e.vector, payload := e.metadata })) ∧
    (∀ (p : PostgresParams) (items : List PgRecord), 0 < p.batch_size →
      (pgWriteBatches p items).length = (items.length + p.batch_size - 1) / p.batch_size ∧
      (∀ c ∈ pgWriteBatches p items, c.length ≤ p.batch_size) ∧
      (pgWriteBatches p items).flatten = items.map (fun r => r.map Prod.snd)) ∧
    (∀ (p : S3Params) (items : List ObjectItem),
      (s3Write p items).length = items.length ∧
      (s3Write p items).map PutCall.key = items.map (fun it => resolve_key p it.path)) := by
  refine ⟨fun p items hb => ⟨?_, ?_, ?_⟩, fun p items hb => ⟨?_, ?_, ?_⟩,
    fun p items => ⟨?_, ?_⟩⟩
  · rw [qdrantWrite_eq, chunksList_length _ hb, List.length_map]
  · intro c hc
    rw [qdrantWrite_eq] at hc
    exact chunksList_mem_length _ hb _ _ hc
  · rw [qdrantWrite_eq, chunksList_flatten _ hb]
  · rw [pgWriteBatches, List.length_map, chunksList_length _ hb]
  · intro c hc
    rw [pgWriteBatches] at hc
    obtain ⟨c0, hc0, rfl⟩ := List.mem_map.mp hc
    rw [List.length_map]
    exact chunksList_mem_length _ hb _ _ hc0
  · rw [pgWriteBatches, flatten_map_map, chunksList_flatten _ hb]
  · rw [s3Write, List.length_map]
  · rw [s3Write, List.map_map]
    rfl

/-- C1 witness: concrete instances of the amended statement. -/
theorem claim_C1_write_batching_witness :
    (qdrantWrite { collection := "c", batch_size := 2 }
        [{ id := "a", vector := [], metadata := [] },
         { id := "b", vector := [], metadata := [] },
         { id := "e", vector := [], metadata := [] }]).length = 2 ∧
    (pgWriteBatches { table := "t", batch_size := 2 }
        [[("x", some "1")], [("x", some "2")], [("x", some "3")]]).flatten =
      [[some "1"], [some "2"], [some "3"]] :=
  ⟨((claim_C1_write_batching.1
      { collection := "c", batch_size := 2 }
      [{ id := "a", vector := [], metadata := [] },
       { id := "b", vector := [], metadata := [] },
       { id := "e", vector := [], metadata := [] }] (by decide)).1).trans (by decide),
   ((claim_C1_write_batching.2.1
      { table := "t", batch_size := 2 }
      [[("x", some "1")], [("x", some "2")], [("x", some "3")]] (by decide)).2.2).trans
      (by decide)⟩

/-! ## C9 -/

/-- C9: `PostgresProvider.write` derives the INSERT column list solely from
the first item's keys; every item's values are bound positionally in that
item's own order; nothing is rejected (the only no-call case is empty
input, there is no INVALID_INPUT shape validation); and when an item's key
sequence equals the first item's, the pairing of columns with that item's
bound values reproduces the item — values land on the intended columns. -/
theorem claim_C9_write_positional (p : PostgresParams) (items : List PgRecord)
    (hb : 0 < p.batch_size) :
    ((pgWriteBatches p items).flatten = items.map (fun r => r.map Prod.snd)) ∧
    (pgWrite p items = none ↔ items = []) ∧
    (∀ i0 rest, items = i0 :: rest → pgInsertColumns items = i0.map Prod.fst) ∧
    (∀ r ∈ items, r.map Prod.fst = pgInsertColumns items →
      (pgInsertColumns items).zip (r.map Prod.snd) = r) := by
  refine ⟨?_, ?_, ?_, ?_⟩
  · rw [pgWriteBatches, flatten_map_map, chunksList_flatten _ hb]
  · constructor
    · intro h
      by_contra hne
      simp [pgWrite, hne] at h
    · intro h
      subst h
      rfl
  · intro i0 rest h
    subst h
    rfl
  · intro r hr hcols
    rw [← hcols]
    exact Eq.symm (List.zip_of_prod rfl rfl)

/-- C9 witness: a second item whose key order differs from the first's is
still written, bound in its own order; and an item matching the first item's
key order has its values paired with the intended columns. -/
theorem claim_C9_write_positional_witness :
    (pgWriteBatches { table := "t", batch_size := 10 }
        [[("a", some "1"), ("b", some "2")], [("b", some "3"), ("a", some "4")]]).flatten =
      [[some "1", some "2"], [some "3", some "4"]] ∧
    (pgInsertColumns
        [[("a", some "1"), ("b", some "2")], [("b", some "3"), ("a", some "4")]]).zip
      (([("a", some "1"), ("b", some "2")] : PgRecord).map Prod.snd) =
      [("a", some "1"), ("b", some "2")] :=
  ⟨((claim_C9_write_positional { table := "t", batch_size := 10 }
      [[("a", some "1"), ("b", some "2")], [("b", some "3"), ("a", some "4")]]
      (by decide)).1).trans (by decide),
   (claim_C9_write_positional { table := "t", batch_size := 10 }
      [[("a", some "1"), ("b", some "2")], [("b", some "3"), ("a", some "4")]]
      (by decide)).2.2.2 [("a", some "1"), ("b", some "2")] (by decide) (by decide)⟩

theorem s3ReadGo_mem (bucket : S3BucketModel) (bname pfx : String) (b : Nat) :
    ∀ (fuel : Nat) (lastKey : Option String) (pr : ObjectItem × ObjectContext),
      pr ∈ (s3ReadGo bucket bname pfx b fuel lastKey).1 →
        strStartsWith pr.1.path pfx = true ∧
        pr.2 = { pfx := some pfx, token := some pr.1.path } ∧
        pr.1.data = bucket.content pr.1.path := by
  intro fuel
  induction fuel with
  | zero =>
    intro lastKey pr hpr
    simp [s3ReadGo] at hpr
  | succ fuel ih =>
    intro lastKey pr hpr
    have hpage : ∀ q, q ∈ (s3ListPage bucket pfx (truthyOpt lastKey) b).1 →
        strStartsWith q pfx = true := by
      intro q hq
      have hq2 := List.mem_of_mem_take hq
      rw [s3MatchingKeys, List.mem_filter] at hq2
      exact (Bool.and_eq_true _ _ |>.mp hq2.2).1
    have hitems : ∀ q ∈ (s3ListPage bucket pfx (truthyOpt lastKey) b).1,
        pr = ({ path := q, data := bucket.content q, content_type := bucket.contentType q },
          ({ pfx := some pfx, token := some q } : ObjectContext)) →
        strStartsWith pr.1.path pfx = true ∧
        pr.2 = { pfx := some pfx, token := some pr.1.path } ∧
        pr.1.data = bucket.content pr.1.path := by
      intro q hq hpr2
      subst hpr2
      exact ⟨hpage q hq, rfl, rfl⟩
    simp only [s3ReadGo] at hpr
    split at hpr
    · simp at hpr
    · split at hpr
      · rw [List.mem_append] at hpr
        rcases hpr with hpr | hpr
        · obtain ⟨q, hq, hqe⟩ := List.mem_map.mp hpr
          exact hitems q hq hqe.symm
        · exact ih _ pr hpr
      · obtain ⟨q, hq, hqe⟩ := List.mem_map.mp hpr
        exact hitems q hq hqe.symm

theorem s3ReadGo_trace (bucket : S3BucketModel) (bname pfx : String) (b : Nat) :
    ∀ (fuel : Nat) (lastKey : Option String) (req : ListRequest),
      req ∈ (s3ReadGo bucket bname pfx b fuel lastKey).2 →
        req.maxKeys = b ∧ req.bucket = bname ∧ req.pfx = pfx := by
  intro fuel
  induction fuel with
  | zero =>
    intro lastKey req hreq
    simp [s3ReadGo] at hreq
  | succ fuel ih =>
    intro lastKey req hreq
    simp only [s3ReadGo] at hreq
    split at hreq
    · rw [List.mem_singleton] at hreq
      subst hreq
      exact ⟨rfl, rfl, rfl⟩
    · split at hreq
      · rw [List.mem_cons] at hreq
        rcases hreq with hreq | hreq
        · subst hreq
          exact ⟨rfl, rfl, rfl⟩
        · exact ih _ req hreq
      · rw [List.mem_singleton] at hreq
        subst hreq
        exact ⟨rfl, rfl, rfl⟩

/-! ## C10 -/

/-- C10: the backend key used by the S3 write/put/get/delete/exists paths is
the configured prefix concatenated directly before the caller key (no
separator) when the prefix is nonempty and the key does not already start
with it, and the key unchanged otherwise; `S3Provider.read`, in contrast,
yields items whose path is the full listed backend key (it starts with the
effective prefix) and whose context token equals that full key. -/
theorem claim_C10_key_resolution (p : S3Params) (k : String) :
    (p.pfx ≠ "" → strStartsWith k p.pfx = false → resolve_key p k = p.pfx ++ k) ∧
    (strStartsWith k p.pfx = true → resolve_key p k = k) ∧
    (p.pfx = "" → resolve_key p k = k) ∧
    (∀ items, (s3Write p items).map PutCall.key =
      items.map (fun it => resolve_key p it.path)) ∧
    (s3GetKey p k = resolve_key p k ∧ s3PutKey p k = resolve_key p k ∧
      s3DeleteKey p k = resolve_key p k ∧ s3ExistsKey p k = resolve_key p k) ∧
    (∀ (bucket : S3BucketModel) (ctx : ObjectContext)
      (pr : ObjectItem × ObjectContext), pr ∈ (s3Read p bucket ctx).1 →
        strStartsWith pr.1.path (orelseStr ctx.pfx p.pfx) = true ∧
        pr.2.token = some pr.1.path) := by
  refine ⟨?_, ?_, ?_, ?_, ⟨rfl, rfl, rfl, rfl⟩, ?_⟩
  · intro h1 h2
    simp [resolve_key, h1, h2]
  · intro h
    simp [resolve_key, h]
  · intro h
    simp [resolve_key, h]
  · intro items
    rw [s3Write, List.map_map]
    rfl
  · intro bucket ctx pr hpr
    simp only [s3Read] at hpr
    have h := s3ReadGo_mem bucket p.bucket (orelseStr ctx.pfx p.pfx) p.batch_size
      (bucket.keys.length + 1) ctx.token pr hpr
    exact ⟨h.1, by rw [h.2.1]⟩

/-- C10 witness: concrete instances — a key outside the prefix gets the
prefix prepended with no separator, a key already carrying the prefix is
unchanged, and a read item's path is the full backend key. -/
theorem claim_C10_key_resolution_witness :
    resolve_key { bucket := "b", pfx := "data/" } "doc.txt" = "data/doc.txt" ∧
    resolve_key { bucket := "b", pfx := "data/" } "data/x" = "data/x" ∧
    strStartsWith "data/a" "data/" = true :=
  ⟨((claim_C10_key_resolution { bucket := "b", pfx := "data/" } "doc.txt").1
      (by decide) (by decide)).trans (by decide),
   (claim_C10_key_resolution { bucket := "b", pfx := "data/" } "data/x").2.1 (by decide),
   ((claim_C10_key_resolution { bucket := "b", batch_size := 1, pfx := "data/" } "x").2.2.2.2.2
      { keys := ["data/a", "data/b"], content := fun _ => "c", contentType := fun _ => none }
      {}
      ({ path := "data/a", data := "c", content_type := none },
        { pfx := some "data/", token := some "data/a" })
      (by decide)).1⟩

/-! ## C8 -/

/-- C8: a Context of each backend family carries only its positional
resumption fields (object: prefix and token; relational: cursor and
tiebreaker; vector: token) — two contexts agreeing on those fields are
equal, so no fetch count is carried — and every native list request issued
by `S3Provider.read` asks for exactly `params.batch_size` items, whatever
the Context contains. -/
theorem claim_C8_context_positional
    (c1 c2 : ObjectContext) (r1 r2 : RelationalContext) (v1 v2 : VectorContext) :
    (c1.pfx = c2.pfx → c1.token = c2.token → c1 = c2) ∧
    (r1.cursor = r2.cursor → r1.tiebreaker = r2.tiebreaker → r1 = r2) ∧
    (v1.token = v2.token → v1 = v2) ∧
    (∀ (p : S3Params) (bucket : S3BucketModel) (ctx : ObjectContext)
      (req : ListRequest), req ∈ (s3Read p bucket ctx).2 →
        req.maxKeys = p.batch_size) := by
  refine ⟨?_, ?_, ?_, ?_⟩
  · cases c1
    cases c2
    intro h1 h2
    simp_all
  · cases r1
    cases r2
    intro h1 h2
    simp_all
  · cases v1
    cases v2
    intro h1
    simp_all
  · intro p bucket ctx req hreq
    simp only [s3Read] at hreq
    exact (s3ReadGo_trace bucket p.bucket (orelseStr ctx.pfx p.pfx) p.batch_size
      (bucket.keys.length + 1) ctx.token req hreq).1

/-- C8 witness: concrete instances of the extensionality facts and of the
page-size fact. -/
theorem claim_C8_context_positional_witness :
    ({ pfx := some "a", token := some "k" } : ObjectContext) =
      { pfx := some "a", token := some "k" } ∧
    ({ cursor := some "1", tiebreaker := none } : RelationalContext) =
      { cursor := some "1", tiebreaker := none } ∧
    ({ token := none } : VectorContext) = { token := none } ∧
    ({ bucket := "b", pfx := "", maxKeys := 1, startAfter := none } : ListRequest).maxKeys
      = 1 :=
  ⟨(claim_C8_context_positional { pfx := some "a", token := some "k" }
      { pfx := some "a", token := some "k" } {} {} {} {}).1 rfl rfl,
   (claim_C8_context_positional {} {} { cursor := some "1", tiebreaker := none }
      { cursor := some "1", tiebreaker := none } {} {}).2.1 rfl rfl,
   (claim_C8_context_positional {} {} {} {} { token := none } { token := none }).2.2.1 rfl,
   (claim_C8_context_positional {} {} {} {} {} {}).2.2.2
      { bucket := "b", batch_size := 1 }
      { keys := ["x"], content := fun _ => "c", contentType := fun _ => none } {}
      { bucket := "b", pfx := "", maxKeys := 1, startAfter := none } (by decide)⟩

/-! ## C5 -/

/-- C5: for a read with no extra WHERE configuration and all columns
selected, the generated query orders by the cursor column ascending —
together with the tiebreaker column when one is configured — and the
resumption filter bound when the context carries a cursor is the composite
tuple comparison `("c", "t") > ($1, $2)` when a tiebreaker column is
configured (and the context carries the tiebreaker value the provider
always extracts alongside the cursor), and the plain comparison
`"c" > $1` otherwise; the bind parameters are the context's cursor and
tiebreaker values. -/
theorem claim_C5_query_shape (p : PostgresParams) (cv tv tb : String)
    (hwhere : p.whereCond = none) (hcols : p.columns = none) :
    (p.tiebreaker_column = some tb → tb ≠ "" →
      pgBuildQuery p { cursor := some cv, tiebreaker := some tv } =
        ("SELECT * FROM \"" ++ p.schema_name ++ "\".\"" ++ p.table ++ "\" WHERE (\""
            ++ p.cursor_column ++ "\", \"" ++ tb ++ "\") > ($1, $2) ORDER BY \""
            ++ p.cursor_column ++ "\", \"" ++ tb ++ "\"",
          [some cv, some tv])) ∧
    (p.tiebreaker_column = none →
      pgBuildQuery p { cursor := some cv, tiebreaker := none } =
        ("SELECT * FROM \"" ++ p.schema_name ++ "\".\"" ++ p.table ++ "\" WHERE \""
            ++ p.cursor_column ++ "\" > $1 ORDER BY \"" ++ p.cursor_column ++ "\"",
          [some cv])) := by
  constructor
  · intro h htb
    refine Prod.ext ?_ ?_
    · apply strExt
      simp [pgBuildQuery, buildWhereConditions, buildKeysetCondition, quoteIdent,
        strTruthy, hwhere, hcols, h, htb, String.intercalate, String.intercalate.go,
        String.data_append, show toString (1 : Nat) = "1" from rfl,
        show toString (2 : Nat) = "2" from rfl]
    · simp [pgBuildQuery, buildWhereConditions, buildKeysetCondition, quoteIdent,
        strTruthy, hwhere, hcols, h, htb]
  · intro h
    refine Prod.ext ?_ ?_
    · apply strExt
      simp [pgBuildQuery, buildWhereConditions, buildKeysetCondition, quoteIdent,
        strTruthy, hwhere, hcols, h, String.intercalate, String.intercalate.go,
        String.data_append, show toString (1 : Nat) = "1" from rfl]
    · simp [pgBuildQuery, buildWhereConditions, buildKeysetCondition, quoteIdent,
        strTruthy, hwhere, hcols, h]

/-- C5 witness: the spec's own example shapes, concretely. -/
theorem claim_C5_query_shape_witness :
    pgBuildQuery
        { table := "events", cursor_column := "id", tiebreaker_column := some "seq" }
        { cursor := some "5", tiebreaker := some "2" } =
      ("SELECT * FROM \"public\".\"events\" WHERE (\"id\", \"seq\") > ($1, $2) ORDER BY \"id\", \"seq\"",
        [some "5", some "2"]) ∧
    pgBuildQuery { table := "events", cursor_column := "id" } { cursor := some "5" } =
      ("SELECT * FROM \"public\".\"events\" WHERE \"id\" > $1 ORDER BY \"id\"",
        [some "5"]) :=
  ⟨((claim_C5_query_shape
      { table := "events", cursor_column := "id", tiebreaker_column := some "seq" }
      "5" "2" "seq" rfl rfl).1 rfl (by decide)).trans (by decide),
   ((claim_C5_query_shape { table := "events", cursor_column := "id" }
      "5" "2" "seq" rfl rfl).2 rfl).trans (by decide)⟩

theorem listLtB_irrefl : ∀ a, listLtB a a = false := by
  intro a
  induction a with
  | nil => rfl
  | cons c cs ih => simp [listLtB, ih]

theorem listLtB_asymm : ∀ a b, listLtB a b = true → listLtB b a = true → False := by
  intro a
  induction a with
  | nil =>
    intro b h1 h2
    cases b with
    | nil => simp [listLtB] at h1
    | cons d ds => simp [listLtB] at h2
  | cons c cs ih =>
    intro b h1 h2
    cases b with
    | nil => simp [listLtB] at h1
    | cons d ds =>
      simp only [listLtB] at h1 h2
      by_cases hcd : c.toNat < d.toNat
      · simp [hcd, show ¬ d.toNat < c.toNat by omega] at h2
      · by_cases hdc : d.toNat < c.toNat
        · simp [hcd, hdc] at h1
        · simp only [hcd, hdc, if_false, if_neg] at h1 h2
          exact ih ds h1 h2

theorem listLtB_trans : ∀ a b c, listLtB a b = true → listLtB b c = true →
    listLtB a c = true := by
  intro a
  induction a with
  | nil =>
    intro b c h1 h2
    cases b with
    | nil => simp [listLtB] at h1
    | cons d ds =>
      cases c with
      | nil => simp [listLtB] at h2
      | cons e es => simp [listLtB]
  | cons x xs ih =>
    intro b c h1 h2
    cases b with
    | nil => simp [listLtB] at h1
    | cons d ds =>
      cases c with
      | nil => simp [listLtB] at h2
      | cons e es =>
        simp only [listLtB] at h1 h2 ⊢
        by_cases hxd : x.toNat < d.toNat
        · by_cases hde : d.toNat < e.toNat
          · simp [show x.toNat < e.toNat by omega]
          · by_cases hed : e.toNat < d.toNat
            · simp [hde, hed] at h2
            · simp [show x.toNat < e.toNat by omega]
        · by_cases hdx : d.toNat < x.toNat
          · simp [hxd, hdx] at h1
          · by_cases hde : d.toNat < e.toNat
            · simp [show x.toNat < e.toNat by omega]
            · by_cases hed : e.toNat < d.toNat
              · simp [hde, hed] at h2
              · simp only [hxd, hdx, if_neg, if_false] at h1
                simp only [hde, hed, if_neg, if_false] at h2
                simp only [show ¬ x.toNat < e.toNat by omega,
                  show ¬ e.toNat < x.toNat by omega, if_neg, if_false]
                exact ih ds es h1 h2

theorem strLtB_irrefl (a : String) : strLtB a a = false := listLtB_irrefl a.data

theorem strLtB_asymm {a b : String} (h1 : strLtB a b = true) (h2 : strLtB b a = true) :
    False := listLtB_asymm a.data b.data h1 h2

theorem strLtB_trans {a b c : String} (h1 : strLtB a b = true)
    (h2 : strLtB b c = true) : strLtB a c = true := listLtB_trans a.data b.data c.data h1 h2

theorem sorted_filter_after_getLast {α : Type} (r : α → α → Bool)
    (hasym : ∀ a b, r a b = true → r b a = true → False) (l : List α) (b : Nat)
    (hs : l.Pairwise (fun a c => r a c = true)) (m : α)
    (hm : (l.take b).getLast? = some m) :
    l.filter (fun x => r m x) = l.drop b := by
  obtain ⟨front, hfront⟩ := List.getLast?_eq_some_iff.mp hm
  have hdec : l.take b ++ l.drop b = l := List.take_append_drop b l
  have hs2 : (l.take b ++ l.drop b).Pairwise (fun a c => r a c = true) := by
    rw [hdec]
    exact hs
  rw [List.pairwise_append] at hs2
  have hm_mem : m ∈ l.take b := by
    rw [hfront]
    exact List.mem_append_right front (List.mem_singleton_self m)
  have hcross : ∀ y ∈ l.drop b, r m y = true := fun y hy => hs2.2.2 m hm_mem y hy
  have hpage : ∀ x ∈ l.take b, r m x = false := by
    intro x hx
    rw [hfront] at hx
    rw [List.mem_append] at hx
    rcases hx with hx | hx
    · have hpair : (front ++ [m]).Pairwise (fun a c => r a c = true) := by
        rw [← hfront]
        exact hs2.1
      rw [List.pairwise_append] at hpair
      have hxm : r x m = true := hpair.2.2 x hx m (List.mem_singleton_self m)
      by_contra hc
      exact hasym x m hxm (Bool.of_not_eq_false hc)
    · rw [List.mem_singleton] at hx
      rw [hx]
      by_contra hc
      exact hasym m m (Bool.of_not_eq_false hc) (Bool.of_not_eq_false hc)
  calc l.filter (fun x => r m x)
      = (l.take b ++ l.drop b).filter (fun x => r m x) := by rw [hdec]
    _ = (l.take b).filter (fun x => r m x) ++ (l.drop b).filter (fun x => r m x) :=
        List.filter_append _ _
    _ = [] ++ l.drop b := by
        rw [List.filter_eq_nil_iff.mpr (by intro a ha; simp [hpage a ha]),
          List.filter_eq_self.mpr (by intro a ha; simp [hcross a ha])]
    _ = l.drop b := List.nil_append _

theorem s3ReadGo_paths (bucket : S3BucketModel) (bname pfx : String) (b : Nat)
    (hb : 0 < b)
    (hsorted : bucket.keys.Pairwise (fun a c => strLtB a c = true))
    (hne : ∀ k ∈ bucket.keys, k ≠ "") :
    ∀ (fuel : Nat) (lastKey : Option String),
      (s3MatchingKeys bucket pfx (truthyOpt lastKey)).length < fuel →
      (s3ReadGo bucket bname pfx b fuel lastKey).1.map (fun pr => pr.1.path) =
        s3MatchingKeys bucket pfx (truthyOpt lastKey) := by
  intro fuel
  induction fuel with
  | zero =>
    intro lastKey h
    omega
  | succ fuel ih =>
    intro lastKey hlen
    cases hL : (s3ListPage bucket pfx (truthyOpt lastKey) b).1.getLast? with
    | none =>
      have hpageeq : (s3ListPage bucket pfx (truthyOpt lastKey) b).1 =
          (s3MatchingKeys bucket pfx (truthyOpt lastKey)).take b := rfl
      have hnil := List.getLast?_eq_none_iff.mp hL
      rw [hpageeq] at hnil
      rcases List.take_eq_nil_iff.mp hnil with h0 | h0
      · omega
      · simp [s3ReadGo, hL, h0]
    | some lst =>
      have hpageeq : (s3ListPage bucket pfx (truthyOpt lastKey) b).1 =
          (s3MatchingKeys bucket pfx (truthyOpt lastKey)).take b := rfl
      have hmsort : (s3MatchingKeys bucket pfx (truthyOpt lastKey)).Pairwise
          (fun a c => strLtB a c = true) := hsorted.filter _
      have hlst_mem_page : lst ∈ (s3MatchingKeys bucket pfx (truthyOpt lastKey)).take b := by
        rw [← hpageeq]
        obtain ⟨front, hfront⟩ := List.getLast?_eq_some_iff.mp hL
        rw [hfront]
        exact List.mem_append_right front (List.mem_singleton_self lst)
      have hlst_mem : lst ∈ s3MatchingKeys bucket pfx (truthyOpt lastKey) :=
        List.mem_of_mem_take hlst_mem_page
      have hlst_keys : lst ∈ bucket.keys := by
        rw [s3MatchingKeys] at hlst_mem
        exact (List.mem_filter.mp hlst_mem).1
      have hlst_cond := (List.mem_filter.mp (by rw [s3MatchingKeys] at hlst_mem; exact hlst_mem)).2
      have hlst_ne : lst ≠ "" := hne lst hlst_keys
      have hto2 : truthyOpt (some lst) = some lst := by simp [truthyOpt, hlst_ne]
      have hdropeq : s3MatchingKeys bucket pfx (some lst) =
          (s3MatchingKeys bucket pfx (truthyOpt lastKey)).drop b := by
        have hfilter : (s3MatchingKeys bucket pfx (truthyOpt lastKey)).filter
            (fun x => strLtB lst x) =
            (s3MatchingKeys bucket pfx (truthyOpt lastKey)).drop b := by
          apply sorted_filter_after_getLast (fun a c => strLtB a c)
            (fun a c h1 h2 => strLtB_asymm h1 h2) _ b hmsort lst
          rw [← hpageeq]
          exact hL
        rw [← hfilter, s3MatchingKeys, s3MatchingKeys, List.filter_filter]
        apply List.filter_congr
        intro k hk
        cases hto : truthyOpt lastKey with
        | none =>
          simp only []
          cases hsw : strStartsWith k pfx <;> cases hlt : strLtB lst k <;> simp [hsw, hlt]
        | some s =>
          rw [hto] at hlst_cond
          have hslst : strLtB s lst = true := (Bool.and_eq_true _ _ |>.mp hlst_cond).2
          simp only []
          cases hsw : strStartsWith k pfx <;> cases hlt : strLtB lst k <;>
            simp [hsw, hlt]
          exact strLtB_trans hslst hlt
      by_cases htr : (s3ListPage bucket pfx (truthyOpt lastKey) b).2 = true
      · have htr2 : b < (s3MatchingKeys bucket pfx (truthyOpt lastKey)).length := by
          have : (s3ListPage bucket pfx (truthyOpt lastKey) b).2 =
              decide (b < (s3MatchingKeys bucket pfx (truthyOpt lastKey)).length) := rfl
          rw [this] at htr
          exact of_decide_eq_true htr
        have hlen2 : (s3MatchingKeys bucket pfx (truthyOpt (some lst))).length < fuel := by
          rw [hto2, hdropeq, List.length_drop]
          omega
        have hrest := ih (some lst) hlen2
        rw [hto2] at hrest
        simp only [s3ReadGo, hL, htr, if_true, List.map_append, List.map_map]
        rw [hrest, hdropeq, hpageeq]
        have : ((s3MatchingKeys bucket pfx (truthyOpt lastKey)).take b).map
            ((fun pr : ObjectItem × ObjectContext => pr.1.path) ∘ fun k =>
              ({ path := k, data := bucket.content k, content_type := bucket.contentType k },
                ({ pfx := some pfx, token := some k } : ObjectContext))) =
            (s3MatchingKeys bucket pfx (truthyOpt lastKey)).take b := List.map_id' _
        rw [this, List.take_append_drop]
      · have htr2 : ¬ b < (s3MatchingKeys bucket pfx (truthyOpt lastKey)).length := by
          have : (s3ListPage bucket pfx (truthyOpt lastKey) b).2 =
              decide (b < (s3MatchingKeys bucket pfx (truthyOpt lastKey)).length) := rfl
          rw [this] at htr
          exact of_decide_eq_false (Bool.not_eq_true _ |>.mp htr)
        simp only [s3ReadGo, hL, htr, if_false, List.map_map, Bool.false_eq_true]
        have hpage_all : (s3MatchingKeys bucket pfx (truthyOpt lastKey)).take b =
            s3MatchingKeys bucket pfx (truthyOpt lastKey) :=
          List.take_of_length_le (by omega)
        rw [hpageeq, hpage_all]
        exact List.map_id' _

theorem orelseStr_idem (a : Option String) (b : String) :
    orelseStr (some (orelseStr a b)) b = orelseStr a b := by
  cases a with
  | none => by_cases hb : b = "" <;> simp [orelseStr, hb]
  | some s =>
    by_cases hs : s = "" <;> by_cases hb : b = "" <;> simp [orelseStr, hs, hb]

/-! ## C4 -/

/-- C4: for a bucket snapshot (keys listed in strict lexicographic order,
keys nonempty as S3 guarantees) and a positive batch size, reading from a
context whose token is a last-seen key yields exactly the objects whose keys
are lexicographically after that key under the effective prefix, in order and
each exactly once; every yielded context carries the effective prefix and the
yielded key, and resuming from a yielded context keeps the same effective
prefix. -/
theorem claim_C4_object_resumption (p : S3Params) (bucket : S3BucketModel)
    (ctx : ObjectContext) (k : String)
    (hb : 0 < p.batch_size)
    (hsorted : bucket.keys.Pairwise (fun a c => strLtB a c = true))
    (hne : ∀ x ∈ bucket.keys, x ≠ "")
    (htok : ctx.token = some k) (hk : k ≠ "") :
    ((s3Read p bucket ctx).1.map (fun pr => pr.1.path) =
      bucket.keys.filter (fun x =>
        strStartsWith x (orelseStr ctx.pfx p.pfx) && strLtB k x)) ∧
    ((s3Read p bucket ctx).1.map (fun pr => pr.1.path)).Nodup ∧
    (∀ pr ∈ (s3Read p bucket ctx).1,
      pr.2 = { pfx := some (orelseStr ctx.pfx p.pfx), token := some pr.1.path } ∧
      orelseStr pr.2.pfx p.pfx = orelseStr ctx.pfx p.pfx) := by
  have hto : truthyOpt ctx.token = some k := by
    rw [htok]
    simp [truthyOpt, hk]
  have hmain : (s3Read p bucket ctx).1.map (fun pr => pr.1.path) =
      s3MatchingKeys bucket (orelseStr ctx.pfx p.pfx) (some k) := by
    have hlen : (s3MatchingKeys bucket (orelseStr ctx.pfx p.pfx)
        (truthyOpt ctx.token)).length < bucket.keys.length + 1 := by
      have := List.length_filter_le
        (fun x => strStartsWith x (orelseStr ctx.pfx p.pfx) &&
          (match truthyOpt ctx.token with
           | none => true
           | some s => strLtB s x)) bucket.keys
      rw [s3MatchingKeys]
      omega
    have h := s3ReadGo_paths bucket p.bucket (orelseStr ctx.pfx p.pfx) p.batch_size
      hb hsorted hne (bucket.keys.length + 1) ctx.token hlen
    rw [hto] at h
    exact h
  have hfilter : s3MatchingKeys bucket (orelseStr ctx.pfx p.pfx) (some k) =
      bucket.keys.filter (fun x =>
        strStartsWith x (orelseStr ctx.pfx p.pfx) && strLtB k x) := by
    rw [s3MatchingKeys]
  refine ⟨hmain.trans hfilter, ?_, ?_⟩
  · rw [hmain.trans hfilter]
    have hnodup : bucket.keys.Nodup := by
      apply List.Pairwise.imp _ hsorted
      intro a c hac
      intro hEq
      subst hEq
      rw [strLtB_irrefl a] at hac
      exact Bool.false_ne_true hac
    exact hnodup.filter _
  · intro pr hpr
    simp only [s3Read] at hpr
    have h := s3ReadGo_mem bucket p.bucket (orelseStr ctx.pfx p.pfx) p.batch_size
      (bucket.keys.length + 1) ctx.token pr hpr
    refine ⟨h.2.1, ?_⟩
    rw [h.2.1]
    exact orelseStr_idem ctx.pfx p.pfx

/-- C4 witness: three objects under prefix "a/", batch size 1, resuming from
token "a/1" yields exactly "a/2" then "a/3". -/
theorem claim_C4_object_resumption_witness :
    (s3Read { bucket := "b", batch_size := 1 }
        { keys := ["a/1", "a/2", "a/3"], content := fun _ => "c",
          contentType := fun _ => none }
        { pfx := some "a/", token := some "a/1" }).1.map (fun pr => pr.1.path) =
      ["a/2", "a/3"] :=
  ((claim_C4_object_resumption { bucket := "b", batch_size := 1 }
      { keys := ["a/1", "a/2", "a/3"], content := fun _ => "c",
        contentType := fun _ => none }
      { pfx := some "a/", token := some "a/1" } "a/1" (by decide) (by decide)
      (by decide) rfl (by decide)).1).trans (by decide)

theorem charToNat_inj {a b : Char} (h : a.toNat = b.toNat) : a = b := by
  have h2 := congrArg Char.ofNat h
  rwa [Char.ofNat_toNat, Char.ofNat_toNat] at h2

theorem listLtB_tricho : ∀ a b : List Char,
    a = b ∨ listLtB a b = true ∨ listLtB b a = true := by
  intro a
  induction a with
  | nil =>
    intro b
    cases b with
    | nil => exact Or.inl rfl
    | cons d ds => exact Or.inr (Or.inl rfl)
  | cons c cs ih =>
    intro b
    cases b with
    | nil => exact Or.inr (Or.inr rfl)
    | cons d ds =>
      by_cases h1 : c.toNat < d.toNat
      · exact Or.inr (Or.inl (by simp [listLtB, h1]))
      · by_cases h2 : d.toNat < c.toNat
        · exact Or.inr (Or.inr (by simp [listLtB, h2]))
        · have hc : c = d := charToNat_inj (by omega)
          subst hc
          rcases ih ds with h | h | h
          · exact Or.inl (by rw [h])
          · exact Or.inr (Or.inl (by simp [listLtB, h]))
          · exact Or.inr (Or.inr (by simp [listLtB, h]))

theorem strLtB_tricho (a b : String) :
    a = b ∨ strLtB a b = true ∨ strLtB b a = true := by
  rcases listLtB_tricho a.data b.data with h | h | h
  · exact Or.inl (strExt h)
  · exact Or.inr (Or.inl h)
  · exact Or.inr (Or.inr h)

theorem strLeB_trans {a b c : String} (h1 : strLeB a b = true)
    (h2 : strLeB b c = true) : strLeB a c = true := by
  simp only [strLeB, Bool.or_eq_true, decide_eq_true_eq] at h1 h2 ⊢
  rcases h1 with rfl | h1
  · exact h2
  · rcases h2 with rfl | h2
    · exact Or.inr h1
    · exact Or.inr (strLtB_trans h1 h2)

theorem strLeB_total (a b : String) : strLeB a b = true ∨ strLeB b a = true := by
  simp only [strLeB, Bool.or_eq_true, decide_eq_true_eq]
  rcases strLtB_tricho a b with rfl | h | h
  · exact Or.inl (Or.inl rfl)
  · exact Or.inl (Or.inr h)
  · exact Or.inr (Or.inr h)

theorem strLeB_antisymm {a b : String} (h1 : strLeB a b = true)
    (h2 : strLeB b a = true) : a = b := by
  simp only [strLeB, Bool.or_eq_true, decide_eq_true_eq] at h1 h2
  rcases h1 with rfl | h1
  · rfl
  · rcases h2 with rfl | h2
    · rfl
    · exact absurd h2 (fun hh => strLtB_asymm h1 hh)

theorem strLeB_of_ne_of_not_lt {a b : String} (hne : a ≠ b)
    (h : strLeB a b = true) : strLtB a b = true := by
  simp only [strLeB, Bool.or_eq_true, decide_eq_true_eq] at h
  rcases h with rfl | h
  · exact absurd rfl hne
  · exact h

theorem optLeB_trans {x y z : PgValue} (h1 : optLeB x y = true)
    (h2 : optLeB y z = true) : optLeB x z = true := by
  cases x <;> cases y <;> cases z <;> simp_all [optLeB]
  exact strLeB_trans h1 h2

theorem optLeB_total (x y : PgValue) : optLeB x y = true ∨ optLeB y x = true := by
  cases x <;> cases y <;> simp_all [optLeB]
  exact strLeB_total _ _

theorem optLeB_antisymm {x y : PgValue} (h1 : optLeB x y = true)
    (h2 : optLeB y x = true) : x = y := by
  cases x <;> cases y <;> simp_all [optLeB]
  exact strLeB_antisymm h1 h2

theorem optLtB_trans {x y z : PgValue} (h1 : optLtB x y = true)
    (h2 : optLtB y z = true) : optLtB x z = true := by
  cases x <;> cases y <;> cases z <;> simp_all [optLtB]
  exact strLtB_trans h1 h2

theorem optLtB_asymm {x y : PgValue} (h1 : optLtB x y = true)
    (h2 : optLtB y x = true) : False := by
  cases x <;> cases y <;> simp_all [optLtB]
  exact strLtB_asymm h1 h2

theorem optLtB_irrefl (x : PgValue) : optLtB x x = false := by
  cases x <;> simp [optLtB, strLtB_irrefl]

theorem optLtB_of_le_of_ne {x y : PgValue} (h : optLeB x y = true) (hne : x ≠ y) :
    optLtB x y = true := by
  cases x <;> cases y <;> simp_all [optLeB, optLtB]
  exact strLeB_of_ne_of_not_lt hne h

theorem optLeB_of_lt {x y : PgValue} (h : optLtB x y = true) : optLeB x y = true := by
  cases x <;> cases y <;> simp_all [optLtB, optLeB, strLeB]

theorem rowLeB_trans (p : PostgresParams) {a c d : PgRecord}
    (h1 : rowLeB p a c = true) (h2 : rowLeB p c d = true) : rowLeB p a d = true := by
  simp only [rowLeB] at h1 h2 ⊢
  by_cases e1 : (rowKey p a).1 = (rowKey p c).1 <;>
    by_cases e2 : (rowKey p c).1 = (rowKey p d).1
  · rw [if_pos e1] at h1
    rw [if_pos e2] at h2
    rw [if_pos (e1.trans e2)]
    exact optLeB_trans h1 h2
  · rw [if_neg e2] at h2
    have hlt : optLtB (rowKey p a).1 (rowKey p d).1 = true := by
      rw [e1]
      exact h2
    have hne : (rowKey p a).1 ≠ (rowKey p d).1 := by
      intro he
      rw [he, optLtB_irrefl] at hlt
      exact Bool.false_ne_true hlt
    rw [if_neg hne]
    exact hlt
  · rw [if_neg e1] at h1
    have hlt : optLtB (rowKey p a).1 (rowKey p d).1 = true := by
      rw [← e2]
      exact h1
    have hne : (rowKey p a).1 ≠ (rowKey p d).1 := by
      intro he
      rw [he, optLtB_irrefl] at hlt
      exact Bool.false_ne_true hlt
    rw [if_neg hne]
    exact hlt
  · rw [if_neg e1] at h1
    rw [if_neg e2] at h2
    have hlt := optLtB_trans h1 h2
    have hne : (rowKey p a).1 ≠ (rowKey p d).1 := by
      intro he
      rw [he, optLtB_irrefl] at hlt
      exact Bool.false_ne_true hlt
    rw [if_neg hne]
    exact hlt

theorem rowLeB_total (p : PostgresParams) (a c : PgRecord) :
    rowLeB p a c = true ∨ rowLeB p c a = true := by
  simp only [rowLeB]
  by_cases e1 : (rowKey p a).1 = (rowKey p c).1
  · rw [if_pos e1, if_pos e1.symm]
    exact optLeB_total _ _
  · rw [if_neg e1, if_neg (fun h => e1 h.symm)]
    rcases optLeB_total (rowKey p a).1 (rowKey p c).1 with h | h
    · exact Or.inl (optLtB_of_le_of_ne h e1)
    · exact Or.inr (optLtB_of_le_of_ne h (fun hh => e1 hh.symm))

theorem pairLtB_trans {x y z : PgValue × PgValue} (h1 : pairLtB x y = true)
    (h2 : pairLtB y z = true) : pairLtB x z = true := by
  simp only [pairLtB, Bool.or_eq_true, Bool.and_eq_true, decide_eq_true_eq] at h1 h2 ⊢
  rcases h1 with h1 | ⟨he1, h1⟩
  · rcases h2 with h2 | ⟨he2, h2⟩
    · exact Or.inl (optLtB_trans h1 h2)
    · rw [← he2]
      exact Or.inl h1
  · rcases h2 with h2 | ⟨he2, h2⟩
    · rw [he1]
      exact Or.inl h2
    · exact Or.inr ⟨he1.trans he2, optLtB_trans h1 h2⟩

theorem pairLtB_asymm {x y : PgValue × PgValue} (h1 : pairLtB x y = true)
    (h2 : pairLtB y x = true) : False := by
  simp only [pairLtB, Bool.or_eq_true, Bool.and_eq_true, decide_eq_true_eq] at h1 h2
  rcases h1 with h1 | ⟨he1, h1⟩
  · rcases h2 with h2 | ⟨he2, h2⟩
    · exact optLtB_asymm h1 h2
    · rw [he2] at h1
      rw [optLtB_irrefl] at h1
      exact Bool.false_ne_true h1
  · rcases h2 with h2 | ⟨he2, h2⟩
    · rw [he1] at h2
      rw [optLtB_irrefl] at h2
      exact Bool.false_ne_true h2
    · exact optLtB_asymm h1 h2

theorem keyLtB_of_le_of_ne (p : PostgresParams) {a c : PgRecord}
    (h : rowLeB p a c = true) (hne : rowKey p a ≠ rowKey p c) :
    keyLtB p a c = true := by
  simp only [rowLeB] at h
  simp only [keyLtB, pairLtB, Bool.or_eq_true, Bool.and_eq_true, decide_eq_true_eq]
  by_cases e1 : (rowKey p a).1 = (rowKey p c).1
  · rw [if_pos e1] at h
    have hne2 : (rowKey p a).2 ≠ (rowKey p c).2 := by
      intro he2
      exact hne (Prod.ext e1 he2)
    exact Or.inr ⟨e1, optLtB_of_le_of_ne h hne2⟩
  · rw [if_neg e1] at h
    exact Or.inl h

theorem perm_pairwise_eq {α : Type} (r : α → α → Prop)
    (hasym : ∀ a b, r a b → r b a → False) :
    ∀ l1 l2 : List α, l1.Perm l2 → l1.Pairwise r → l2.Pairwise r → l1 = l2 := by
  intro l1
  induction l1 with
  | nil =>
    intro l2 hp _ _
    exact hp.nil_eq
  | cons a t1 ih =>
    intro l2 hp h1 h2
    cases l2 with
    | nil => exact absurd hp.symm.nil_eq (by simp)
    | cons b t2 =>
      by_cases hab : a = b
      · subst hab
        rw [ih t2 hp.cons_inv h1.of_cons h2.of_cons]
      · have ha2 : a ∈ b :: t2 := hp.subset (List.mem_cons_self a t1)
        have ha2b : a ∈ t2 := by
          rcases List.mem_cons.mp ha2 with h | h
          · exact absurd h hab
          · exact h
        have hba : r b a := List.rel_of_pairwise_cons h2 ha2b
        have hb1 : b ∈ a :: t1 := hp.symm.subset (List.mem_cons_self b t2)
        have hb1b : b ∈ t1 := by
          rcases List.mem_cons.mp hb1 with h | h
          · exact absurd h.symm hab
          · exact h
        have habr : r a b := List.rel_of_pairwise_cons h1 hb1b
        exact (hasym a b habr hba).elim

theorem filter_pairwise_eq_drop {α : Type} (r : α → α → Bool) :
    ∀ (l : List α), l.Pairwise (fun a c => r a c = true) →
      (∀ a ∈ l, ∀ c ∈ l, r a c = true → r c a = true → False) →
      ∀ (i : Nat) (hi : i < l.length),
        l.filter (fun x => r (l.get ⟨i, hi⟩) x) = l.drop (i + 1) := by
  intro l
  induction l with
  | nil =>
    intro _ _ i hi
    simp at hi
  | cons x xs ih =>
    intro hs hasym i hi
    cases i with
    | zero =>
      have hxx : r x x = false := by
        by_contra hc
        exact hasym x (List.mem_cons_self x xs) x (List.mem_cons_self x xs)
          (Bool.of_not_eq_false hc) (Bool.of_not_eq_false hc)
      have hall : ∀ y ∈ xs, r x y = true := fun y hy => List.rel_of_pairwise_cons hs hy
      rw [show (x :: xs).get ⟨0, hi⟩ = x from rfl, List.filter_cons]
      simp only [hxx, Bool.false_eq_true, if_false]
      rw [List.filter_eq_self.mpr hall]
      rfl
    | succ j =>
      have hj : j < xs.length := by simpa using hi
      have hy : xs.get ⟨j, hj⟩ ∈ xs := List.get_mem xs j hj
      have hxy : r x (xs.get ⟨j, hj⟩) = true := List.rel_of_pairwise_cons hs hy
      have hyx : r (xs.get ⟨j, hj⟩) x = false := by
        by_contra hc
        exact hasym x (List.mem_cons_self x xs) (xs.get ⟨j, hj⟩)
          (List.mem_cons_of_mem x hy) hxy (Bool.of_not_eq_false hc)
      rw [show (x :: xs).get ⟨j + 1, hi⟩ = xs.get ⟨j, hj⟩ from rfl, List.filter_cons]
      simp only [hyx, Bool.false_eq_true, if_false]
      rw [List.drop_succ_cons]
      exact ih hs.of_cons
        (fun a ha c hc => hasym a (List.mem_cons_of_mem x ha) c (List.mem_cons_of_mem x hc))
        j hj

theorem rowKey_eq (p : PostgresParams) (t : String) (r : PgRecord)
    (htb : p.tiebreaker_column = some t) (htne : t ≠ "")
    {cr tr : String}
    (hcr : sqlVal r p.cursor_column = some cr) (htr : sqlVal r t = some tr) :
    rowKey p r = (some cr, some tr) := by
  simp [rowKey, htb, strTruthy, htne, hcr, htr]

theorem extractContext_eq (p : PostgresParams) (t : String) (r : PgRecord)
    (htb : p.tiebreaker_column = some t) (htne : t ≠ "")
    {cs ts : String}
    (hcr : List.lookup p.cursor_column r = some (some cs))
    (htr : List.lookup t r = some (some ts)) :
    extractContext p r = { cursor := some cs, tiebreaker := some ts } := by
  simp [extractContext, extractStr, hcr, htb, strTruthy, htne, htr]

theorem sqlPairGtB_eq_pairLtB (a b cv tv : String) :
    sqlPairGtB (some a) (some b) cv tv = pairLtB (some cv, some tv) (some a, some b) := by
  by_cases hcc : cv = a
  · subst hcc
    simp [sqlPairGtB, sqlGtB, pairLtB, optLtB]
  · have hcc2 : a ≠ cv := fun h => hcc h.symm
    simp [sqlPairGtB, sqlGtB, pairLtB, optLtB, hcc, hcc2]

theorem keysetPredB_extract (p : PostgresParams) (t : String)
    (htb : p.tiebreaker_column = some t) (htne : t ≠ "")
    (ri r : PgRecord) {ci ti : String}
    (hci : List.lookup p.cursor_column ri = some (some ci))
    (hti : List.lookup t ri = some (some ti)) :
    keysetPredB p (extractContext p ri) r =
      sqlPairGtB (sqlVal r p.cursor_column) (sqlVal r t) ci ti := by
  rw [extractContext_eq p t ri htb htne hci hti]
  simp [keysetPredB, htb, strTruthy, htne]

theorem keysetPredB_extract_keyLt (p : PostgresParams) (t : String)
    (htb : p.tiebreaker_column = some t) (htne : t ≠ "")
    (ri r : PgRecord) {ci ti cr tr : String}
    (hci : List.lookup p.cursor_column ri = some (some ci))
    (hti : List.lookup t ri = some (some ti))
    (hcr : sqlVal r p.cursor_column = some cr) (htr : sqlVal r t = some tr) :
    keysetPredB p (extractContext p ri) r = keyLtB p ri r := by
  rw [keysetPredB_extract p t htb htne ri r hci hti, hcr, htr,
    sqlPairGtB_eq_pairLtB, keyLtB,
    rowKey_eq p t ri htb htne
      (show sqlVal ri p.cursor_column = some ci by simp [sqlVal, hci])
      (show sqlVal ri t = some ti by simp [sqlVal, hti]),
    rowKey_eq p t r htb htne hcr htr]

theorem pairLtB_some_iff {ci ti cr tr : String} :
    pairLtB (some ci, some ti) (some cr, some tr) = true ↔
      (strLtB ci cr = true ∨ (ci = cr ∧ strLtB ti tr = true)) := by
  simp [pairLtB, optLtB, Bool.or_eq_true, Bool.and_eq_true]

theorem keysetPredB_mono (p : PostgresParams) (t : String)
    (htb : p.tiebreaker_column = some t) (htne : t ≠ "")
    (ctx0 : RelationalContext) (ri r : PgRecord) {ci ti cr tr : String}
    (hci : sqlVal ri p.cursor_column = some ci) (hti : sqlVal ri t = some ti)
    (hcr : sqlVal r p.cursor_column = some cr) (htr : sqlVal r t = some tr)
    (hpi : keysetPredB p ctx0 ri = true) (hlt : keyLtB p ri r = true) :
    keysetPredB p ctx0 r = true := by
  have hltv : pairLtB (some ci, some ti) (some cr, some tr) = true := by
    rw [keyLtB, rowKey_eq p t ri htb htne hci hti, rowKey_eq p t r htb htne hcr htr] at hlt
    exact hlt
  cases hc0 : ctx0.cursor with
  | none => simp [keysetPredB, hc0]
  | some cv =>
    cases ht0 : ctx0.tiebreaker with
    | none =>
      simp only [keysetPredB, hc0, ht0] at hpi ⊢
      rw [hci] at hpi
      rw [hcr]
      simp only [sqlGtB] at hpi ⊢
      rcases pairLtB_some_iff.mp hltv with h | ⟨he, _⟩
      · exact strLtB_trans hpi h
      · rw [← he]
        exact hpi
    | some tv =>
      have hdec : (decide (t ≠ "") : Bool) = true := decide_eq_true htne
      simp only [keysetPredB, hc0, ht0, htb, strTruthy, hdec, Option.getD_some] at hpi ⊢
      rw [hci, hti, sqlPairGtB_eq_pairLtB] at hpi
      rw [hcr, htr, sqlPairGtB_eq_pairLtB]
      exact pairLtB_trans hpi hltv

theorem keyLtB_asymm (p : PostgresParams) {a c : PgRecord}
    (h1 : keyLtB p a c = true) (h2 : keyLtB p c a = true) : False := by
  rw [keyLtB] at h1 h2
  exact pairLtB_asymm h1 h2

/-! ## C2 -/

theorem lookup_map_sqlVal (r : PgRecord) :
    ∀ (cols : List String) (col : String), col ∈ cols →
      List.lookup col (cols.map (fun c => (c, sqlVal r c))) = some (sqlVal r col) := by
  intro cols
  induction cols with
  | nil =>
    intro col h
    cases h
  | cons c0 cls ih =>
    intro col hcol
    by_cases hce : col = c0
    · subst hce
      simp [List.lookup]
    · have hbe : (col == c0) = false := by simp [hce]
      simp only [List.map_cons, List.lookup, hbe]
      exact ih col (by
        rcases List.mem_cons.mp hcol with h | h
        · exact absurd h hce
        · exact h)

theorem extractContext_project (p : PostgresParams) (t : String)
    (htb : p.tiebreaker_column = some t) (htne : t ≠ "")
    (hsel : p.columns = none ∨ p.columns = some [] ∨
      ∃ c0 cls, p.columns = some (c0 :: cls) ∧ p.cursor_column ∈ c0 :: cls ∧
        t ∈ c0 :: cls)
    (r : PgRecord) {ci ti : String}
    (hci : List.lookup p.cursor_column r = some (some ci))
    (hti : List.lookup t r = some (some ti)) :
    extractContext p (pgProject p r) = { cursor := some ci, tiebreaker := some ti } := by
  rcases hsel with h | h | ⟨c0, cls, hc0, hmc, hmt⟩
  · simp only [pgProject, h]
    exact extractContext_eq p t r htb htne hci hti
  · simp only [pgProject, h]
    exact extractContext_eq p t r htb htne hci hti
  · have hciV : sqlVal r p.cursor_column = some ci := by
      rw [sqlVal, hci]
      rfl
    have htiV : sqlVal r t = some ti := by
      rw [sqlVal, hti]
      rfl
    have h1 : List.lookup p.cursor_column (pgProject p r) = some (some ci) := by
      simp only [pgProject, hc0]
      rw [lookup_map_sqlVal r (c0 :: cls) p.cursor_column hmc, hciV]
    have h2 : List.lookup t (pgProject p r) = some (some ti) := by
      simp only [pgProject, hc0]
      rw [lookup_map_sqlVal r (c0 :: cls) t hmt, htiV]
    exact extractContext_eq p t (pgProject p r) htb htne h1 h2

theorem keysetPredB_lit_keyLt (p : PostgresParams) (t : String)
    (htb : p.tiebreaker_column = some t) (htne : t ≠ "")
    (ri r : PgRecord) {ci ti cr tr : String}
    (hciV : sqlVal ri p.cursor_column = some ci) (htiV : sqlVal ri t = some ti)
    (hcr : sqlVal r p.cursor_column = some cr) (htr : sqlVal r t = some tr) :
    keysetPredB p { cursor := some ci, tiebreaker := some ti } r = keyLtB p ri r := by
  have hdec : (decide (t ≠ "") : Bool) = true := decide_eq_true htne
  simp only [keysetPredB, htb, strTruthy, hdec, Option.getD_some]
  rw [hcr, htr, sqlPairGtB_eq_pairLtB, keyLtB, rowKey_eq p t ri htb htne hciV htiV,
    rowKey_eq p t r htb htne hcr htr]

/-- C2 amended: for a relational provider with cursor column c and a
configured tiebreaker column t, over any table snapshot in which both
columns are non-NULL in every row and the (c, t) key pairs are pairwise
distinct (the tiebreaker's disambiguation contract), and provided the
configured SELECT column list either selects all columns or includes both c
and t (the provider extracts the resumption context from the projected
record, so excluding them breaks resumption — see the counterexample),
every read stream is sorted by the emitted ORDER BY clause, and resuming
`read` with the Context yielded alongside any consumed row yields exactly
the remaining stream — same order, no omissions, no repeats.  Arbitrary
configured where-conditions are allowed; they are ANDed into every query
alike.  (When two rows share an identical (c, t) pair the claim also fails:
the duplicated row is omitted on resume.) -/
theorem claim_C2_relational_resumption (p : PostgresParams) (t : String)
    (table : List PgRecord) (ctx0 : RelationalContext)
    (htb : p.tiebreaker_column = some t) (htne : t ≠ "")
    (hsel : p.columns = none ∨ p.columns = some [] ∨
      ∃ c0 cls, p.columns = some (c0 :: cls) ∧ p.cursor_column ∈ c0 :: cls ∧
        t ∈ c0 :: cls)
    (hc : ∀ r ∈ table, ∃ s, List.lookup p.cursor_column r = some (some s))
    (ht : ∀ r ∈ table, ∃ s, List.lookup t r = some (some s))
    (hdistinct : table.Pairwise (fun a c => rowKey p a ≠ rowKey p c)) :
    (pgReadRows p table ctx0).Pairwise (rowLeP p) ∧
    ∀ (i : Nat) (hi : i < (pgRead p table ctx0).length),
      pgRead p table ((pgRead p table ctx0).get ⟨i, hi⟩).2 =
        (pgRead p table ctx0).drop (i + 1) := by
  haveI : IsTotal PgRecord (rowLeP p) := ⟨fun a c => rowLeB_total p a c⟩
  haveI : IsTrans PgRecord (rowLeP p) := ⟨fun a c d h1 h2 => rowLeB_trans p h1 h2⟩
  have hkeysym : Symmetric (fun a c : PgRecord => rowKey p a ≠ rowKey p c) :=
    fun a c h he => h he.symm
  have hSperm : (List.insertionSort (rowLeP p)
      (table.filter (fun r => wherePredB p r && keysetPredB p ctx0 r))).Perm
      (table.filter (fun r => wherePredB p r && keysetPredB p ctx0 r)) :=
    List.perm_insertionSort _ _
  have hSsorted : (List.insertionSort (rowLeP p)
      (table.filter (fun r => wherePredB p r && keysetPredB p ctx0 r))).Pairwise
      (rowLeP p) :=
    List.sorted_insertionSort _ _
  have hdistinctS : (List.insertionSort (rowLeP p)
      (table.filter (fun r => wherePredB p r && keysetPredB p ctx0 r))).Pairwise
      (fun a c => rowKey p a ≠ rowKey p c) :=
    (List.Perm.pairwise_iff (fun h => hkeysym h) hSperm).mpr (hdistinct.filter _)
  have hSkey : (List.insertionSort (rowLeP p)
      (table.filter (fun r => wherePredB p r && keysetPredB p ctx0 r))).Pairwise
      (fun a c => keyLtB p a c = true) :=
    (hSsorted.and hdistinctS).imp (fun h => keyLtB_of_le_of_ne p h.1 h.2)
  refine ⟨hSsorted, ?_⟩
  intro i hi
  have hiS : i < (List.insertionSort (rowLeP p)
      (table.filter (fun r => wherePredB p r && keysetPredB p ctx0 r))).length := by
    simpa [pgRead, pgReadRows] using hi
  have hmem : (List.insertionSort (rowLeP p)
      (table.filter (fun r => wherePredB p r && keysetPredB p ctx0 r))).get ⟨i, hiS⟩ ∈
      table :=
    List.mem_of_mem_filter (hSperm.subset (List.get_mem _ i hiS))
  have hpi0 : (wherePredB p ((List.insertionSort (rowLeP p)
      (table.filter (fun r => wherePredB p r && keysetPredB p ctx0 r))).get ⟨i, hiS⟩) &&
      keysetPredB p ctx0 ((List.insertionSort (rowLeP p)
        (table.filter (fun r => wherePredB p r && keysetPredB p ctx0 r))).get ⟨i, hiS⟩)) =
      true :=
    (List.mem_filter.mp (hSperm.subset (List.get_mem _ i hiS))).2
  have hpi : keysetPredB p ctx0 ((List.insertionSort (rowLeP p)
      (table.filter (fun r => wherePredB p r && keysetPredB p ctx0 r))).get ⟨i, hiS⟩) =
      true := (Bool.and_eq_true _ _ |>.mp hpi0).2
  obtain ⟨ci, hci⟩ := hc _ hmem
  obtain ⟨ti, hti⟩ := ht _ hmem
  have hciV : sqlVal ((List.insertionSort (rowLeP p)
      (table.filter (fun r => wherePredB p r && keysetPredB p ctx0 r))).get ⟨i, hiS⟩)
      p.cursor_column = some ci := by
    rw [sqlVal, hci]
    rfl
  have htiV : sqlVal ((List.insertionSort (rowLeP p)
      (table.filter (fun r => wherePredB p r && keysetPredB p ctx0 r))).get ⟨i, hiS⟩)
      t = some ti := by
    rw [sqlVal, hti]
    rfl
  have hctx : ((pgRead p table ctx0).get ⟨i, hi⟩).2 =
      ({ cursor := some ci, tiebreaker := some ti } : RelationalContext) := by
    have h1 : ((pgRead p table ctx0).get ⟨i, hi⟩).2 =
        extractContext p (pgProject p ((List.insertionSort (rowLeP p)
          (table.filter (fun r => wherePredB p r && keysetPredB p ctx0 r))).get
          ⟨i, hiS⟩)) := by
      show (((List.insertionSort (rowLeP p)
          (table.filter (fun r => wherePredB p r && keysetPredB p ctx0 r))).map
          (fun r => (pgProject p r, extractContext p (pgProject p r)))).get ⟨i, hi⟩).2 = _
      rw [List.get_eq_getElem, List.getElem_map, List.get_eq_getElem]
    rw [h1]
    exact extractContext_project p t htb htne hsel _ hci hti
  have hfilter_eq : table.filter (fun r => wherePredB p r &&
      keysetPredB p { cursor := some ci, tiebreaker := some ti } r) =
      (table.filter (fun r => wherePredB p r && keysetPredB p ctx0 r)).filter
        (fun r => keyLtB p ((List.insertionSort (rowLeP p)
          (table.filter (fun r => wherePredB p r && keysetPredB p ctx0 r))).get
          ⟨i, hiS⟩) r) := by
    rw [List.filter_filter]
    apply List.filter_congr
    intro r hr
    obtain ⟨cr, hcr⟩ := hc r hr
    obtain ⟨tr, htr⟩ := ht r hr
    have hcv : sqlVal r p.cursor_column = some cr := by
      rw [sqlVal, hcr]
      rfl
    have htv : sqlVal r t = some tr := by
      rw [sqlVal, htr]
      rfl
    rw [keysetPredB_lit_keyLt p t htb htne _ r hciV htiV hcv htv]
    cases hk : keyLtB p ((List.insertionSort (rowLeP p)
        (table.filter (fun r => wherePredB p r && keysetPredB p ctx0 r))).get
        ⟨i, hiS⟩) r with
    | false => simp
    | true =>
      have hprd := keysetPredB_mono p t htb htne ctx0 _ r hciV htiV hcv htv hpi hk
      simp [hprd]
  have hdropS : (List.insertionSort (rowLeP p)
      (table.filter (fun r => wherePredB p r && keysetPredB p ctx0 r))).filter
        (fun r => keyLtB p ((List.insertionSort (rowLeP p)
          (table.filter (fun r => wherePredB p r && keysetPredB p ctx0 r))).get
          ⟨i, hiS⟩) r) =
      (List.insertionSort (rowLeP p)
        (table.filter (fun r => wherePredB p r && keysetPredB p ctx0 r))).drop (i + 1) :=
    filter_pairwise_eq_drop (fun a c => keyLtB p a c) _ hSkey
      (fun a _ c _ h1 h2 => keyLtB_asymm p h1 h2) i hiS
  have hpermChain : (List.insertionSort (rowLeP p)
      (table.filter (fun r => wherePredB p r &&
        keysetPredB p { cursor := some ci, tiebreaker := some ti } r))).Perm
      ((List.insertionSort (rowLeP p)
        (table.filter (fun r => wherePredB p r && keysetPredB p ctx0 r))).drop (i + 1)) := by
    refine (List.perm_insertionSort _ _).trans ?_
    rw [hfilter_eq, ← hdropS]
    exact (hSperm.symm).filter _
  have hsorted2 : (List.insertionSort (rowLeP p)
      (table.filter (fun r => wherePredB p r &&
        keysetPredB p { cursor := some ci, tiebreaker := some ti } r))).Pairwise
      (fun a c => keyLtB p a c = true) := by
    have hsort := List.sorted_insertionSort (rowLeP p)
      (table.filter (fun r => wherePredB p r &&
        keysetPredB p { cursor := some ci, tiebreaker := some ti } r))
    have hdist2 : (List.insertionSort (rowLeP p)
        (table.filter (fun r => wherePredB p r &&
          keysetPredB p { cursor := some ci, tiebreaker := some ti } r))).Pairwise
        (fun a c => rowKey p a ≠ rowKey p c) :=
      (List.Perm.pairwise_iff (fun h => hkeysym h) (List.perm_insertionSort _ _)).mpr
        (hdistinct.filter _)
    exact (hsort.and hdist2).imp (fun h => keyLtB_of_le_of_ne p h.1 h.2)
  have hdropSorted : ((List.insertionSort (rowLeP p)
      (table.filter (fun r => wherePredB p r && keysetPredB p ctx0 r))).drop
      (i + 1)).Pairwise (fun a c => keyLtB p a c = true) :=
    List.Pairwise.sublist (List.drop_sublist _ _) hSkey
  have hfinal : List.insertionSort (rowLeP p)
      (table.filter (fun r => wherePredB p r &&
        keysetPredB p { cursor := some ci, tiebreaker := some ti } r)) =
      (List.insertionSort (rowLeP p)
        (table.filter (fun r => wherePredB p r && keysetPredB p ctx0 r))).drop (i + 1) :=
    perm_pairwise_eq (fun a c => keyLtB p a c = true)
      (fun a c h1 h2 => keyLtB_asymm p h1 h2) _ _ hpermChain hsorted2 hdropSorted
  rw [hctx]
  show (List.insertionSort (rowLeP p)
      (table.filter (fun r => wherePredB p r &&
        keysetPredB p { cursor := some ci, tiebreaker := some ti } r))).map
      (fun r => (pgProject p r, extractContext p (pgProject p r))) =
    ((List.insertionSort (rowLeP p)
      (table.filter (fun r => wherePredB p r && keysetPredB p ctx0 r))).map
      (fun r => (pgProject p r, extractContext p (pgProject p r)))).drop (i + 1)
  rw [hfinal]
  exact List.map_drop _ _ _

/-- C2 counterexample, two independent failures of the claim as stated.
First, with cursor column "c" and tiebreaker column "t" configured, a
snapshot holding two rows that share the identical key pair ("1", "1")
breaks it: the full read yields both rows, but resuming with the context
extracted alongside the first row yields nothing — the second row is
omitted (the keyset condition `(c, t) > ("1", "1")` excludes it).  Second,
with `params.columns = ["x"]` excluding the cursor and tiebreaker columns,
`_extract_context` reads the projected record, gets "" for both values, and
resuming with the context yielded alongside the first consumed row replays
the whole two-row stream — the consumed row repeats. -/
theorem claim_C2_counterexample :
    (((pgRead { table := "t", cursor_column := "c", tiebreaker_column := some "t" }
        [[("c", some "1"), ("t", some "1"), ("x", some "a")],
         [("c", some "1"), ("t", some "1"), ("x", some "b")]] {}).map Prod.fst =
      [[("c", some "1"), ("t", some "1"), ("x", some "a")],
       [("c", some "1"), ("t", some "1"), ("x", some "b")]]) ∧
    pgRead { table := "t", cursor_column := "c", tiebreaker_column := some "t" }
        [[("c", some "1"), ("t", some "1"), ("x", some "a")],
         [("c", some "1"), ("t", some "1"), ("x", some "b")]]
        (extractContext
          { table := "t", cursor_column := "c", tiebreaker_column := some "t" }
          [("c", some "1"), ("t", some "1"), ("x", some "a")]) = []) ∧
    ((pgRead
        { table := "t", cursor_column := "c", tiebreaker_column := some "t",
          columns := some ["x"] }
        [[("c", some "1"), ("t", some "1"), ("x", some "a")],
         [("c", some "2"), ("t", some "2"), ("x", some "b")]] {}).length = 2 ∧
      pgRead
        { table := "t", cursor_column := "c", tiebreaker_column := some "t",
          columns := some ["x"] }
        [[("c", some "1"), ("t", some "1"), ("x", some "a")],
         [("c", some "2"), ("t", some "2"), ("x", some "b")]]
        ((pgRead
          { table := "t", cursor_column := "c", tiebreaker_column := some "t",
            columns := some ["x"] }
          [[("c", some "1"), ("t", some "1"), ("x", some "a")],
           [("c", some "2"), ("t", some "2"), ("x", some "b")]] {}).get
          ⟨0, by decide⟩).2 =
        pgRead
          { table := "t", cursor_column := "c", tiebreaker_column := some "t",
            columns := some ["x"] }
          [[("c", some "1"), ("t", some "1"), ("x", some "a")],
           [("c", some "2"), ("t", some "2"), ("x", some "b")]] {}) := by
  decide

/-- C2 witness: a two-row snapshot (given unsorted) with distinct (c, t)
keys; resuming after the first yielded row gives exactly the remaining
stream. -/
theorem claim_C2_relational_resumption_witness :
    pgRead { table := "t", cursor_column := "c", tiebreaker_column := some "t" }
        [[("c", some "1"), ("t", some "2")], [("c", some "1"), ("t", some "1")]]
        ((pgRead { table := "t", cursor_column := "c", tiebreaker_column := some "t" }
          [[("c", some "1"), ("t", some "2")], [("c", some "1"), ("t", some "1")]]
          {}).get ⟨0, by decide⟩).2 =
      (pgRead { table := "t", cursor_column := "c", tiebreaker_column := some "t" }
        [[("c", some "1"), ("t", some "2")], [("c", some "1"), ("t", some "1")]]
        {}).drop 1 :=
  (claim_C2_relational_resumption
    { table := "t", cursor_column := "c", tiebreaker_column := some "t" } "t"
    [[("c", some "1"), ("t", some "2")], [("c", some "1"), ("t", some "1")]] {}
    rfl (by decide) (Or.inl rfl)
    (by
      intro r hr
      rcases List.mem_cons.mp hr with rfl | hr2
      · exact ⟨"1", rfl⟩
      · rcases List.mem_cons.mp hr2 with rfl | h3
        · exact ⟨"1", rfl⟩
        · cases h3)
    (by
      intro r hr
      rcases List.mem_cons.mp hr with rfl | hr2
      · exact ⟨"2", rfl⟩
      · rcases List.mem_cons.mp hr2 with rfl | h3
        · exact ⟨"1", rfl⟩
        · cases h3)
    (by decide)).2 0 (by decide)
